import Mathlib

/-!
# Notification fan-out of the chat application backend

A shallow embedding of the HTTP handlers of `backend/Controller/PostController.js`
and `backend/Controller/UserController.js` that sit around the real-time
notification layer.  Every handler is a pure function from the document store
and the request to an `Outcome`: the store afterwards, the ordered list of
effects the handler performed, and the response it sent (if it sent one).

The development also covers the connection registry with its presence list, the
socket handlers of the client `App.jsx`, the caption handler `generateCaption`
and the assistant handler `handleAIChat` of `backend/Controller/aiController.js`.
-/

namespace ChatApp

/-! ## Values, documents and the store -/

/-- JSON values, as they appear in response bodies and socket payloads. -/
inductive JsVal where
  | null
  | bool (b : Bool)
  | str (s : String)
  | arr (items : List JsVal)
  | obj (fields : List (String × JsVal))

/-- An object literal: its fields in the order they are written. -/
abbrev JsObj := List (String × JsVal)

/-- Field access `o[k]`; `none` stands for `undefined`. -/
def JsObj.get (o : JsObj) (k : String) : Option JsVal :=
  match o with
  | [] => none
  | (k1, v) :: rest => if k1 = k then some v else JsObj.get rest k

/-- The object `o` with its field `k` holding `v` instead (fields keep their place). -/
def JsObj.set (o : JsObj) (k : String) (v : JsVal) : JsObj :=
  o.map (fun p => if p.1 = k then (p.1, v) else p)

/-- A document of the `Post` collection (the fields the handlers touch). -/
structure PostDoc where
  _id : String
  author : String
  likes : List String
  comments : List String
  deriving DecidableEq

/-- A document of the `User` collection. -/
structure UserDoc where
  _id : String
  username : String
  email : String
  password : String
  profilePicture : String
  bio : String
  followers : List String
  following : List String
  posts : List String
  bookmarks : List String
  deriving DecidableEq

/-- A document of the `Comment` collection. -/
structure CommentDoc where
  _id : String
  text : String
  author : String
  post : String
  deriving DecidableEq

/-- The document store: the three collections the handlers work on. -/
structure Store where
  posts : List PostDoc
  users : List UserDoc
  comments : List CommentDoc
  deriving DecidableEq

/-- `Post.findById(id)`: the post with that `_id`, `none` for `null`. -/
def Store.findPost (s : Store) (id : String) : Option PostDoc :=
  s.posts.find? (fun p => decide (p._id = id))

/-- `User.findById(id)`: the user with that `_id`, `none` for `null`. -/
def Store.findUser (s : Store) (id : String) : Option UserDoc :=
  s.users.find? (fun u => decide (u._id = id))

/-- Apply `f` to the first element satisfying `p` (one document is updated). -/
def updateFirst {α : Type} (p : α → Bool) (f : α → α) : List α → List α
  | [] => []
  | x :: xs => if p x then f x :: xs else x :: updateFirst p f xs

/-- Mongo `$addToSet`: append the value unless the array already holds it. -/
def addToSet (xs : List String) (x : String) : List String :=
  if x ∈ xs then xs else xs ++ [x]

/-- Mongo `$pull`: remove every occurrence of the value. -/
def pull (xs : List String) (x : String) : List String :=
  xs.filter (fun y => decide (y ≠ x))

/-- The write `post.updateOne(\x7b likes: ... \x7d)` on the post with the given id. -/
def Store.updatePostLikes (s : Store) (id : String) (f : List String → List String) : Store :=
  let posts1 := updateFirst (fun p => decide (p._id = id))
    (fun p => { p with likes := f p.likes }) s.posts
  { s with posts := posts1 }

/-! ## Effects, responses and outcomes -/

/-- The addressee of a socket emit: `io.to(room)` or the whole server `io`. -/
inductive Target where
  | room (id : Option String)
  | everyone

/-- One observable step of a handler, in the order the handler performs them. -/
inductive Effect where
  | postFindById (postId : String)
  | postUpdateOne (postId : String)
  | postSave (postId : String)
  | userFindById (userId : String)
  | userFindByIdAndUpdate (userId : String)
  | postFindByIdAndDelete (postId : String)
  | commentDeleteMany (postId : String)
  | commentCreate (commentId : String)
  | commentPopulate (commentId : String)
  | getReceiverSocketId (userId : String)
  | emit (target : Target) (event : String) (payload : JsObj)

/-- An HTTP response: `res.status(status).json(body)`. -/
structure Response where
  status : Nat
  body : JsObj

/-- What a handler call leaves behind; `response = none` when nothing was sent. -/
structure Outcome where
  store : Store
  effects : List Effect
  response : Option Response

/-- Which awaited collaborator call of the notification step rejects (throws). -/
structure Faults where
  actorLookup : Bool
  socketLookup : Bool
  emit : Bool
  deriving DecidableEq

/-- The execution in which no collaborator call throws. -/
def Faults.none : Faults := ⟨false, false, false⟩

/-- The collaborators imported from `Socket/socket.js`, whose source is not part
of the controller: the socket lookup is a parameter, one id or `undefined`. -/
structure Env where
  getReceiverSocketId : String → Option String
  faults : Faults

/-- The emits among a list of effects, as (target, event name, payload). -/
def emits : List Effect → List (Target × String × JsObj)
  | [] => []
  | Effect.emit t ev p :: rest => (t, ev, p) :: emits rest
  | _ :: rest => emits rest

/-- The socket lookups among a list of effects. -/
def socketLookups : List Effect → List String
  | [] => []
  | Effect.getReceiverSocketId u :: rest => u :: socketLookups rest
  | _ :: rest => socketLookups rest

/-! ## The like and dislike handlers -/

/-- `User.findById(id).select("username profilePicture")` as a JSON value. -/
def selectSummary : Option UserDoc → JsVal
  | Option.none => JsVal.null
  | some u => JsVal.obj [("_id", JsVal.str u._id), ("username", JsVal.str u.username),
      ("profilePicture", JsVal.str u.profilePicture)]

/-- The handler `likePost` of `PostController.js`.  A rejected await leaves the
`try` block for the empty `catch`: the handler ends without a response. -/
def likePost (env : Env) (s : Store) (reqId postId : String) : Outcome :=
  let likeKrneWalaUserKiId := reqId
  match s.findPost postId with
  | Option.none =>
    ⟨s, [Effect.postFindById postId],
      some ⟨404, [("message", JsVal.str "Post not found"), ("success", JsVal.bool false)]⟩⟩
  | some post =>
    let s1 := s.updatePostLikes postId (fun likes => addToSet likes likeKrneWalaUserKiId)
    let eff := [Effect.postFindById postId, Effect.postUpdateOne postId, Effect.postSave postId]
    if env.faults.actorLookup then ⟨s1, eff, Option.none⟩ else
    let user := selectSummary (s1.findUser likeKrneWalaUserKiId)
    let eff := eff ++ [Effect.userFindById likeKrneWalaUserKiId]
    let postOwnerId := post.author
    if postOwnerId ≠ likeKrneWalaUserKiId then
      let notification : JsObj :=
        [("type", JsVal.str "like"), ("userId", JsVal.str likeKrneWalaUserKiId),
         ("userDetails", user), ("postId", JsVal.str postId),
         ("message", JsVal.str "Your post was liked")]
      if env.faults.socketLookup then ⟨s1, eff, Option.none⟩ else
      let postOwnerSocketId := env.getReceiverSocketId postOwnerId
      let eff := eff ++ [Effect.getReceiverSocketId postOwnerId]
      if env.faults.emit then ⟨s1, eff, Option.none⟩ else
      let eff := eff ++ [Effect.emit (Target.room postOwnerSocketId) "notification" notification]
      ⟨s1, eff, some ⟨200, [("message", JsVal.str "Post liked"), ("success", JsVal.bool true)]⟩⟩
    else
      ⟨s1, eff, some ⟨200, [("message", JsVal.str "Post liked"), ("success", JsVal.bool true)]⟩⟩

/-- The handler `dislikePost` of `PostController.js`. -/
def dislikePost (env : Env) (s : Store) (reqId postId : String) : Outcome :=
  let likeKrneWalaUserKiId := reqId
  match s.findPost postId with
  | Option.none =>
    ⟨s, [Effect.postFindById postId],
      some ⟨404, [("message", JsVal.str "Post not found"), ("success", JsVal.bool false)]⟩⟩
  | some post =>
    let s1 := s.updatePostLikes postId (fun likes => pull likes likeKrneWalaUserKiId)
    let eff := [Effect.postFindById postId, Effect.postUpdateOne postId, Effect.postSave postId]
    if env.faults.actorLookup then ⟨s1, eff, Option.none⟩ else
    let user := selectSummary (s1.findUser likeKrneWalaUserKiId)
    let eff := eff ++ [Effect.userFindById likeKrneWalaUserKiId]
    let postOwnerId := post.author
    if postOwnerId ≠ likeKrneWalaUserKiId then
      let notification : JsObj :=
        [("type", JsVal.str "dislike"), ("userId", JsVal.str likeKrneWalaUserKiId),
         ("userDetails", user), ("postId", JsVal.str postId),
         ("message", JsVal.str "Your post was liked")]
      if env.faults.socketLookup then ⟨s1, eff, Option.none⟩ else
      let postOwnerSocketId := env.getReceiverSocketId postOwnerId
      let eff := eff ++ [Effect.getReceiverSocketId postOwnerId]
      if env.faults.emit then ⟨s1, eff, Option.none⟩ else
      let eff := eff ++ [Effect.emit (Target.room postOwnerSocketId) "notification" notification]
      ⟨s1, eff, some ⟨200, [("message", JsVal.str "Post disliked"), ("success", JsVal.bool true)]⟩⟩
    else
      ⟨s1, eff, some ⟨200, [("message", JsVal.str "Post disliked"), ("success", JsVal.bool true)]⟩⟩

/-! ## The comment and follow handlers -/

/-- The write `post.save()` after `post.comments.push(...)`: the stored post takes
the comments array of the handler-local document. -/
def Store.savePostComments (s : Store) (id : String) (comments : List String) : Store :=
  let posts1 := updateFirst (fun p => decide (p._id = id))
    (fun p => { p with comments := comments }) s.posts
  { s with posts := posts1 }

/-- The handler `addComment` of `PostController.js`; `text = none` is a request body
without `text`, and `commentId` is the `_id` the store gives the new comment.  When
the post is `null`, `post.comments` throws after the comment was created and the
`catch` only logs: no response is sent. -/
def addComment (s : Store) (reqId postId : String) (text : Option String)
    (commentId : String) : Outcome :=
  let commentKrneWalaUserKiId := reqId
  let post := s.findPost postId
  let eff := [Effect.postFindById postId]
  match text with
  | Option.none =>
    ⟨s, eff, some ⟨400, [("message", JsVal.str "text is required"), ("success", JsVal.bool false)]⟩⟩
  | some txt =>
    if txt = "" then
      ⟨s, eff, some ⟨400, [("message", JsVal.str "text is required"), ("success", JsVal.bool false)]⟩⟩
    else
      let s1 : Store :=
        { s with comments := s.comments ++ [⟨commentId, txt, commentKrneWalaUserKiId, postId⟩] }
      let comment : JsVal := JsVal.obj
        [("_id", JsVal.str commentId), ("text", JsVal.str txt),
         ("author", selectSummary (s1.findUser commentKrneWalaUserKiId)),
         ("post", JsVal.str postId)]
      let eff := eff ++ [Effect.commentCreate commentId, Effect.commentPopulate commentId]
      match post with
      | Option.none => ⟨s1, eff, Option.none⟩
      | some p =>
        let s2 := s1.savePostComments postId (p.comments ++ [commentId])
        ⟨s2, eff ++ [Effect.postSave postId],
          some ⟨201, [("message", JsVal.str "Comment Added"), ("comment", comment),
            ("success", JsVal.bool true)]⟩⟩

/-- The write `User.findByIdAndUpdate(id, ...)` on the user with the given id. -/
def Store.updateUser (s : Store) (id : String) (f : UserDoc → UserDoc) : Store :=
  let users1 := updateFirst (fun u => decide (u._id = id)) f s.users
  { s with users := users1 }

/-- The handler `followOrUnfollow` of `UserController.js`: `reqId` is the
authenticated requester, `paramId` the `:id` of the route. -/
def followOrUnfollow (s : Store) (reqId paramId : String) : Outcome :=
  let followerId := reqId
  let userIdToFollow := paramId
  if followerId = userIdToFollow then
    ⟨s, [], some ⟨400, [("message", JsVal.str "You cannot follow/unfollow yourself"),
      ("success", JsVal.bool false)]⟩⟩
  else
    let eff := [Effect.userFindById followerId, Effect.userFindById userIdToFollow]
    match s.findUser followerId, s.findUser userIdToFollow with
    | some currentUser, some _ =>
      let isFollowing := decide (userIdToFollow ∈ currentUser.following)
      let eff := eff ++ [Effect.userFindByIdAndUpdate followerId,
        Effect.userFindByIdAndUpdate userIdToFollow]
      if isFollowing then
        let s1 := s.updateUser followerId
          (fun u => { u with following := pull u.following userIdToFollow })
        let s2 := s1.updateUser userIdToFollow
          (fun u => { u with followers := pull u.followers followerId })
        ⟨s2, eff, some ⟨200, [("message", JsVal.str "Unfollowed successfully"),
          ("success", JsVal.bool true), ("action", JsVal.str "unfollowed")]⟩⟩
      else
        let s1 := s.updateUser followerId
          (fun u => { u with following := addToSet u.following userIdToFollow })
        let s2 := s1.updateUser userIdToFollow
          (fun u => { u with followers := addToSet u.followers followerId })
        ⟨s2, eff, some ⟨200, [("message", JsVal.str "Followed successfully"),
          ("success", JsVal.bool true), ("action", JsVal.str "followed")]⟩⟩
    | _, _ =>
      ⟨s, eff, some ⟨404, [("message", JsVal.str "User not found"),
        ("success", JsVal.bool false)]⟩⟩

/-! ## Delivery -/

/-- A live connection: its socket id and the user identity bound to it. -/
structure Connection where
  socketId : String
  userId : String
  deriving DecidableEq

/-- Modelled from the spec: the socket server `io` that `Socket/socket.js` exports,
a file absent from the sources.  An event is "delivered only to the connections of
the addressed" party: an emit addressed to a connection identifier reaches the live
connection carrying that identifier, an emit addressed to `undefined` reaches no
connection, and an emit on the whole server reaches every live connection. -/
def deliveredTo (conns : List Connection) : Target → List Connection
  | Target.room Option.none => []
  | Target.room (some id) => conns.filter (fun c => decide (c.socketId = id))
  | Target.everyone => conns

/-- The deliveries a list of emits causes: (receiving connection, event, payload). -/
def fanout (conns : List Connection) :
    List (Target × String × JsObj) → List (Connection × String × JsObj)
  | [] => []
  | (t, ev, p) :: rest => (deliveredTo conns t).map (fun c => (c, ev, p)) ++ fanout conns rest

/-- Every delivery that the effects of a handler cause on the live connections. -/
def deliveries (conns : List Connection) (effects : List Effect) :
    List (Connection × String × JsObj) :=
  fanout conns (emits effects)

/-- The live connections a user holds. -/
def connectionsOf (conns : List Connection) (userId : String) : List Connection :=
  conns.filter (fun c => decide (c.userId = userId))

/-! ## A small running example -/

/-- Two users: alice owns post `p1`, bob does not. -/
def demoStore : Store :=
  { posts := [⟨"p1", "alice", [], []⟩],
    users := [⟨"alice", "Alice", "a@x.io", "h1", "a.png", "", [], [], ["p1"], []⟩,
              ⟨"bob", "Bob", "b@x.io", "h2", "b.png", "", [], [], [], []⟩],
    comments := [] }

/-- Alice holds two live connections, bob one. -/
def demoConns : List Connection :=
  [⟨"s1", "alice"⟩, ⟨"s2", "alice"⟩, ⟨"s3", "bob"⟩]

/-- A socket lookup that knows one socket id per user. -/
def demoLookup (userId : String) : Option String :=
  if userId = "alice" then some "s2" else if userId = "bob" then some "s3" else Option.none

/-- A socket lookup for which nobody is online. -/
def offlineLookup (_ : String) : Option String := Option.none

/-- The running example with every field of bob changed that is not a display field:
email, password hash, bio and followers. -/
def demoStoreOtherSecrets : Store :=
  { posts := [⟨"p1", "alice", [], []⟩],
    users := [⟨"alice", "Alice", "a@x.io", "h1", "a.png", "", [], [], ["p1"], []⟩,
              ⟨"bob", "Bob", "bob@y.org", "h9", "b.png", "hello", ["alice"], [], [], []⟩],
    comments := [] }

/-- The fields of a user that `select("username profilePicture")` keeps. -/
def displayFields (u : UserDoc) : String × String × String :=
  (u._id, u.username, u.profilePicture)

/-! ## Deleting a post -/

/-- The handler `deletePost` of `PostController.js`: `reqId` is the authenticated
requester, `postId` the `:postId` of the route. -/
def deletePost (s : Store) (reqId postId : String) : Outcome :=
  let authorId := reqId
  match s.findPost postId with
  | Option.none =>
    ⟨s, [Effect.postFindById postId],
      some ⟨404, [("message", JsVal.str "Post not found"), ("success", JsVal.bool false)]⟩⟩
  | some post =>
    if post.author ≠ authorId then
      ⟨s, [Effect.postFindById postId], some ⟨403, [("message", JsVal.str "Unauthorized")]⟩⟩
    else
      let posts1 := s.posts.eraseP (fun p => decide (p._id = postId))
      let s1 : Store := { s with posts := posts1 }
      let s2 := s1.updateUser authorId (fun u => { u with posts := pull u.posts postId })
      let comments1 := s2.comments.filter (fun c => decide (c.post ≠ postId))
      let s3 : Store := { s2 with comments := comments1 }
      ⟨s3, [Effect.postFindById postId, Effect.postFindByIdAndDelete postId,
          Effect.userFindByIdAndUpdate authorId, Effect.commentDeleteMany postId],
        some ⟨200, [("success", JsVal.bool true), ("message", JsVal.str "Post deleted")]⟩⟩

/-- The field `action` of a response body, when it is a string. -/
def actionOf (r : Option Response) : Option String :=
  match r with
  | Option.none => Option.none
  | some resp =>
    match JsObj.get resp.body "action" with
    | some (JsVal.str a) => some a
    | _ => Option.none

/-- The running example after bob has commented on the post of alice. -/
def demoStoreCommented : Store :=
  { posts := [⟨"p1", "alice", [], ["c1"]⟩],
    users := [⟨"alice", "Alice", "a@x.io", "h1", "a.png", "", [], [], ["p1"], []⟩,
              ⟨"bob", "Bob", "b@x.io", "h2", "b.png", "", [], [], [], []⟩],
    comments := [⟨"c1", "nice", "bob", "p1"⟩] }

/-! ## Connection registry and presence -/

/-- Modelled from the spec: the Connection Registry that `Socket/socket.js` holds, a
file absent from the sources.  The registry owns the live connections, each with
its connection identifier and its owning user identity, and remembers the online
list it last announced to the clients. -/
structure Registry where
  conns : List Connection
  announced : List String
  deriving DecidableEq

/-- Modelled from the spec: the registry of a server on which no connection was ever
opened; no list has been announced, which clients read as nobody being online. -/
def Registry.empty : Registry := ⟨[], []⟩

/-- Modelled from the spec: `snapshotPresence`, "the set of user identities with at
least one live connection", "recomputed as a view over the registry": every owner
of a live connection, listed once. -/
def snapshotPresence : List Connection → List String
  | [] => []
  | c :: rest =>
    if c.userId ∈ snapshotPresence rest then snapshotPresence rest
    else c.userId :: snapshotPresence rest

/-- The error a refused `register` reports. -/
inductive RegistryError where
  | duplicateConnection
  deriving DecidableEq

/-- Modelled from the spec: `register(userId, connectionId)` "adds connectionId to
the set owned by userId", "fails with DuplicateConnection if connectionId already
exists (bound to any user)", and "triggers a presence recomputation if userId
transitioned from zero to one connection"; the recomputed list is announced. -/
def Registry.register (r : Registry) (userId connectionId : String) :
    Except RegistryError Registry :=
  if connectionId ∈ r.conns.map (fun c => c.socketId) then
    Except.error RegistryError.duplicateConnection
  else
    let conns1 := r.conns ++ [⟨connectionId, userId⟩]
    if connectionsOf r.conns userId = [] then
      Except.ok ⟨conns1, snapshotPresence conns1⟩
    else
      Except.ok ⟨conns1, r.announced⟩

/-- Modelled from the spec: `unregister(connectionId)` "removes the connection from
whatever user owns it; no-op (not an error) if unknown", and "triggers a presence
recomputation if the owning user's connection set becomes empty"; the recomputed
list is announced. -/
def Registry.unregister (r : Registry) (connectionId : String) : Registry :=
  match r.conns.find? (fun c => decide (c.socketId = connectionId)) with
  | Option.none => r
  | some c =>
    let conns1 := r.conns.filter (fun x => decide (x.socketId ≠ connectionId))
    if connectionsOf conns1 c.userId = [] then
      ⟨conns1, snapshotPresence conns1⟩
    else
      ⟨conns1, r.announced⟩

/-- A connection lifecycle event reaching the registry. -/
inductive RegistryOp where
  | register (userId connectionId : String)
  | unregister (connectionId : String)
  deriving DecidableEq

/-- One lifecycle event; a refused `register` leaves the registry as it was. -/
def Registry.step (r : Registry) : RegistryOp → Registry
  | RegistryOp.register userId connectionId =>
    match r.register userId connectionId with
    | Except.ok r1 => r1
    | Except.error _ => r
  | RegistryOp.unregister connectionId => r.unregister connectionId

/-- The registry reached from the empty one by a sequence of lifecycle events. -/
def Registry.run (ops : List RegistryOp) : Registry :=
  ops.foldl Registry.step Registry.empty

/-- Modelled from the spec: the Event Router that `Socket/socket.js` puts behind the
socket lookup and the emit of a handler; the file is absent from the sources.
`deliver(targetUserId, event)` "looks up connectionsOf(targetUserId); if empty,
returns immediately with no side effect", and otherwise "the event is pushed to
every connection owned by that user": one emit to the room of each connection
identifier that the lookup returned. -/
def Registry.deliver (r : Registry) (targetUserId event : String) (payload : JsObj) :
    List (Connection × String × JsObj) :=
  fanout r.conns ((connectionsOf r.conns targetUserId).map
    (fun c => (Target.room (some c.socketId), event, payload)))

/-- Modelled from the spec: the delivery attempts that the trace of a handler causes
on a registry when the socket lookup of the handler for a user, with the emit that
follows it, is the `deliver` of the router for that user.  How many identifiers the
lookup of `Socket/socket.js` returns is not in the sources; here it returns them all,
as `connectionsOf` does. -/
def Registry.routed (r : Registry) : List Effect → List (Connection × String × JsObj)
  | [] => []
  | Effect.getReceiverSocketId userId :: Effect.emit _ ev p :: rest =>
    r.deliver userId ev p ++ r.routed rest
  | _ :: rest => r.routed rest

/-- The lifecycle events of the running example: alice opens two sessions, bob one. -/
def demoOps : List RegistryOp :=
  [RegistryOp.register "alice" "s1", RegistryOp.register "alice" "s2",
   RegistryOp.register "bob" "s3"]

/-- What holds of every reachable registry: connection identifiers are pairwise
distinct, and the announced list names exactly the users with a live connection. -/
def Registry.Consistent (r : Registry) : Prop :=
  (r.conns.map (fun c => c.socketId)).Nodup ∧
  ∀ u, u ∈ r.announced ↔ ∃ c ∈ r.conns, c.userId = u

/-! ## The client: socket events of `App.jsx` -/

/-- A Redux action that the socket handlers of `App` dispatch. -/
inductive Action where
  | setOnlineUsers (payload : List String)
  | setLikeNotification (payload : JsObj)

/-- An event received on the client socket. -/
inductive ClientEvent where
  | connect
  | connectError (err : String)
  | getOnlineUsers (onlineUsers : List String)
  | notification (notification : JsObj)
  | other (name : String)

/-- The handlers `App` registers with `socketio.on`: the actions that one received
event dispatches. -/
def App.onEvent : ClientEvent → List Action
  | ClientEvent.getOnlineUsers onlineUsers => [Action.setOnlineUsers onlineUsers]
  | ClientEvent.notification notification => [Action.setLikeNotification notification]
  | _ => []

/-- Everything dispatched while a sequence of events is received, in order. -/
def App.dispatched : List ClientEvent → List Action
  | [] => []
  | e :: rest => App.onEvent e ++ App.dispatched rest

/-! ## Caption generation -/

/-- The characters `String.prototype.trim` removes: white space and line
terminators, by code point. -/
def isJsWhitespace (c : Char) : Bool :=
  c.toNat ∈ [9, 10, 11, 12, 13, 32, 160, 5760, 8192, 8193, 8194, 8195, 8196, 8197, 8198,
    8199, 8200, 8201, 8202, 8232, 8233, 8239, 8287, 12288, 65279]

/-- The method `trim` of a string. -/
def jsTrim (s : String) : String :=
  String.mk ((s.toList.dropWhile isJsWhitespace).reverse.dropWhile isJsWhitespace).reverse

/-- The test `line.match(/^[\x7b\x7d[\]]/)`: the line starts with a brace or a bracket. -/
def startsWithBracket (line : String) : Bool :=
  match line.toList with
  | [] => false
  | c :: _ => c = '\x7b' || c = '\x7d' || c = '[' || c = ']'

/-- The expression `x || d` for a string or `undefined` on the left. -/
def orDefault (x : Option String) (d : String) : String :=
  match x with
  | Option.none => d
  | some s => if s = "" then d else s

/-- The captions `generateCaption` answers with for the text of the model;
`parse` is `JSON.parse`, `none` when it throws. -/
def captionsOf (parse : String → Option JsVal) (text : String) : List JsVal :=
  let fromText : List JsVal :=
    let lines := ((text.splitOn "\n").map jsTrim).filter
      (fun line => decide (line.length > 0) && !startsWithBracket line)
    ([JsVal.str (orDefault lines[0]? "Beautiful moment captured"),
      JsVal.str (orDefault lines[1]? "Living my best life"),
      JsVal.str (orDefault lines[2]? "Making memories every day")]).take 3
  let captions : List JsVal :=
    match parse text with
    | some (JsVal.arr items) => if items.length ≠ 3 then fromText else items
    | _ => fromText
  if captions.length < 3 then
    captions ++ ([JsVal.str "Exploring new horizons", JsVal.str "Adventure awaits!",
      JsVal.str "Cherishing the moment"].take (3 - captions.length))
  else captions

/-- A value of `Math.random()`: a double at least 0 and below 1.  These are exactly
the fractions `m / 2 ^ q` with a significand `m` of at most 53 bits and a last bit
of weight `2 ^ (-q)`, from `2 ^ (-53)` down to the smallest subnormal `2 ^ (-1074)`. -/
structure Rand01 where
  m : Nat
  q : Nat
  hm : m < 2 ^ 53
  hq : 53 ≤ q
  hq2 : q ≤ 1074

/-- Rounding to the nearest number with a significand of 53 bits, ties to the even
significand: the rounding of every arithmetic operation on doubles, here on a
count `a` of units of one fixed weight. -/
def roundSig53 (a : Nat) : Nat :=
  if a < 2 ^ 53 then a
  else
    let s := Nat.log2 a - 52
    let k := a / 2 ^ s
    let rem := a % 2 ^ s
    let half := 2 ^ (s - 1)
    if rem > half ∨ (rem = half ∧ k % 2 = 1) then (k + 1) * 2 ^ s else k * 2 ^ s

/-- The index `Math.floor(Math.random() * n)` for an array length `n`: the exact
product `m * n / 2 ^ q` is rounded to the nearest double, and the double is floored. -/
def Rand01.index (r : Rand01) (n : Nat) : Nat := roundSig53 (r.m * n) / 2 ^ r.q

/-- The double 0. -/
def zeroRand : Rand01 := ⟨0, 53, by decide, by decide, by decide⟩

/-- The double 0.5. -/
def halfRand : Rand01 := ⟨2 ^ 52, 53, by decide, by decide, by decide⟩

/-- The double 0.8333333333333333, the one just below 5/6. -/
def belowFiveSixths : Rand01 := ⟨7505999378950826, 53, by decide, by decide, by decide⟩

/-- The local clock read by `new Date()`: `getHours()` and `getMonth()`. -/
structure Clock where
  hours : Fin 24
  month : Fin 12

/-- The name of the part of the day. -/
def timeOfDay (hours : Nat) : String :=
  if hours < 12 then "morning" else if hours < 17 then "afternoon" else "evening"

/-- The entry `seasons[Math.floor((month / 12) * 4)]`. -/
def currentSeason (month : Nat) : String :=
  ["spring", "summer", "autumn", "winter"].getD (month * 4 / 12) ""

/-- The array `fallbacks` of the `catch` block of `generateCaption`. -/
def fallbackCaptions (clock : Clock) : List String :=
  let t := timeOfDay clock.hours.val
  let season := currentSeason clock.month.val
  [t.capitalize ++ " vibes ☕", "Golden " ++ t ++ " moments",
   season.capitalize ++ " magic ✨", "Living for this " ++ season,
   "Making memories 📸", "Perfect shot!", "Frame-worthy moment 🖼️", "This is happiness 🌟"]

/-- The loop `while (selectedFallbacks.length < 3 && fallbacks.length > 0)`; `rand k`
is the value of the k-th call of `Math.random()`, and an index beyond the array
pushes `undefined`. -/
def selectLoop (rand : Nat → Rand01) (k : Nat) (selected : List (Option String))
    (fallbacks : List String) : List (Option String) :=
  if selected.length < 3 ∧ fallbacks.length > 0 then
    let randomIndex := (rand k).index fallbacks.length
    selectLoop rand (k + 1) (selected ++ [fallbacks[randomIndex]?])
      (fallbacks.eraseIdx randomIndex)
  else selected
termination_by 3 - selected.length
decreasing_by
  simp only [List.length_append, List.length_singleton]
  omega

/-- An array entry as JSON: `undefined` is written `null`. -/
def entryJson : Option String → JsVal
  | Option.none => JsVal.null
  | some s => JsVal.str s

/-- The handler `generateCaption` of `PostController.js`; `gemini` is the call of
the model on the image, `none` when it rejects and the `catch` block runs. -/
def generateCaption (parse : String → Option JsVal) (gemini : String → Option String)
    (clock : Clock) (rand : Nat → Rand01) (imageUrl : Option String) : Response :=
  match imageUrl with
  | Option.none => ⟨400, [("error", JsVal.str "Image URL is required")]⟩
  | some url =>
    if url = "" then ⟨400, [("error", JsVal.str "Image URL is required")]⟩ else
    match gemini url with
    | some text =>
      ⟨200, [("success", JsVal.bool true), ("captions", JsVal.arr (captionsOf parse text))]⟩
    | Option.none =>
      let selectedFallbacks := selectLoop rand 0 [] (fallbackCaptions clock)
      ⟨200, [("success", JsVal.bool false),
        ("captions", JsVal.arr (selectedFallbacks.map entryJson)),
        ("message", JsVal.str "Using fallback captions")]⟩

/-! ## The assistant chat handler -/

/-- The value of `req.body.message`, as far as `handleAIChat` looks at it: absent,
a value that is not a string (truthy or falsy), or a string. -/
inductive BodyField where
  | missing
  | nonString (truthy : Bool)
  | string (s : String)
  deriving DecidableEq

/-- The test `!message`. -/
def BodyField.falsy : BodyField → Bool
  | BodyField.missing => true
  | BodyField.nonString truthy => !truthy
  | BodyField.string s => decide (s = "")

/-- The test `typeof message !== "string"`. -/
def BodyField.notString : BodyField → Bool
  | BodyField.string _ => false
  | _ => true

/-- The test `message.trim().length === 0`, reached for strings only. -/
def BodyField.trimmedEmpty : BodyField → Bool
  | BodyField.string s => decide ((jsTrim s).length = 0)
  | _ => false

/-- An entry of the answer cache: the object `apiResponse`. -/
structure AiReply where
  reply : String
  source : String
  deriving DecidableEq

/-- The live entries of the `NodeCache`, newest first. -/
abbrev Cache := List (String × AiReply)

/-- The call `cache.get(key)`; `none` for `undefined`. -/
def Cache.get (c : Cache) (key : String) : Option AiReply :=
  match c with
  | [] => Option.none
  | (k, v) :: rest => if k = key then some v else Cache.get rest key

/-- The call `cache.set(key, value)`. -/
def Cache.set (c : Cache) (key : String) (value : AiReply) : Cache :=
  (key, value) :: c.filter (fun e => decide (e.1 ≠ key))

/-- One observable step of `handleAIChat`. -/
inductive AiEffect where
  | userFindById (userId : String)
  | cacheGet (key : String)
  | modelCall (message : String)
  | cacheSet (key : String)
  deriving DecidableEq

/-- What a call of `handleAIChat` leaves behind. -/
structure AiOutcome where
  cache : Cache
  effects : List AiEffect
  response : Response

/-- The JSON body of a reply object. -/
def AiReply.json (r : AiReply) : JsObj :=
  [("reply", JsVal.str r.reply), ("source", JsVal.str r.source)]

/-- The array `FALLBACK_RESPONSES`. -/
def FALLBACK_RESPONSES : List String :=
  ["I\x27d be happy to help with that!",
   "Interesting question! Let me think about that...",
   "Thanks for sharing! What else would you like to know?",
   "I\x27m designed to assist with various topics. Could you elaborate?",
   "That\x27s a great point! Here\x27s what I know..."]

/-- The handler `handleAIChat` of `aiController.js`.  The call of the model takes
the username and bio that go into the system instruction and the message; it is
`none` when the call throws and the `catch` block answers with a fallback. -/
def handleAIChat (s : Store) (cache : Cache) (gemini : String → String → String → Option String)
    (rand : Rand01) (reqId : String) (message : BodyField) : AiOutcome :=
  let userId := reqId
  if message.falsy || message.notString || message.trimmedEmpty then
    ⟨cache, [], ⟨400, [("error", JsVal.str "Message cannot be empty")]⟩⟩
  else
    match message with
    | BodyField.string msg =>
      match s.findUser userId with
      | Option.none =>
        ⟨cache, [AiEffect.userFindById userId], ⟨404, [("error", JsVal.str "User not found")]⟩⟩
      | some user =>
        let cacheKey := userId ++ ":" ++ msg
        match cache.get cacheKey with
        | some cachedResponse =>
          ⟨cache, [AiEffect.userFindById userId, AiEffect.cacheGet cacheKey],
            ⟨200, cachedResponse.json⟩⟩
        | Option.none =>
          match gemini user.username user.bio msg with
          | some reply =>
            let apiResponse : AiReply := ⟨reply, "gemini"⟩
            ⟨cache.set cacheKey apiResponse,
              [AiEffect.userFindById userId, AiEffect.cacheGet cacheKey,
               AiEffect.modelCall msg, AiEffect.cacheSet cacheKey],
              ⟨200, apiResponse.json⟩⟩
          | Option.none =>
            let fallbackResponse : AiReply :=
              ⟨FALLBACK_RESPONSES.getD (rand.index FALLBACK_RESPONSES.length) "", "fallback"⟩
            ⟨cache, [AiEffect.userFindById userId, AiEffect.cacheGet cacheKey,
                AiEffect.modelCall msg],
              ⟨200, fallbackResponse.json⟩⟩
    | _ => ⟨cache, [], ⟨400, [("error", JsVal.str "Message cannot be empty")]⟩⟩

/-- The claim side of the validation: the message is missing, is not a string, or
consists of white space only. -/
def BodyField.Blank : BodyField → Prop
  | BodyField.missing => True
  | BodyField.nonString _ => True
  | BodyField.string s => ∀ c ∈ s.toList, isJsWhitespace c = true

/-- A model that answers every message with the same text. -/
def demoGemini (_ _ _ : String) : Option String := some "Hello!"

/-- A model whose every call throws. -/
def failingGemini (_ _ _ : String) : Option String := Option.none

/-! ## Bookmarks -/

/-- The handler `bookmarkPost` of `PostController.js`: `reqId` is the authenticated
requester, `postId` the `:postId` of the route. -/
def bookmarkPost (s : Store) (reqId postId : String) : Outcome :=
  let userId := reqId
  match s.findPost postId with
  | Option.none =>
    ⟨s, [Effect.postFindById postId],
      some ⟨404, [("message", JsVal.str "Post not found"), ("success", JsVal.bool false)]⟩⟩
  | some post =>
    match s.findUser userId with
    | Option.none =>
      ⟨s, [Effect.postFindById postId, Effect.userFindById userId],
        some ⟨404, [("message", JsVal.str "User not found"), ("success", JsVal.bool false)]⟩⟩
    | some user =>
      if post._id ∈ user.bookmarks then
        let s1 := s.updateUser userId (fun u => { u with bookmarks := pull u.bookmarks post._id })
        ⟨s1, [Effect.postFindById postId, Effect.userFindById userId,
            Effect.userFindByIdAndUpdate userId],
          some ⟨200, [("type", JsVal.str "unsaved"),
            ("message", JsVal.str "Post removed from bookmark"), ("success", JsVal.bool true)]⟩⟩
      else
        let s1 := s.updateUser userId
          (fun u => { u with bookmarks := addToSet u.bookmarks post._id })
        ⟨s1, [Effect.postFindById postId, Effect.userFindById userId,
            Effect.userFindByIdAndUpdate userId],
          some ⟨200, [("type", JsVal.str "saved"),
            ("message", JsVal.str "Post bookmarked"), ("success", JsVal.bool true)]⟩⟩

/-- The field `type` of a response body, when it is a string. -/
def typeOf (r : Option Response) : Option String :=
  match r with
  | Option.none => Option.none
  | some resp =>
    match JsObj.get resp.body "type" with
    | some (JsVal.str a) => some a
    | _ => Option.none

/-- The bookmarks of a user of the store; `none` when the user is not there. -/
def bookmarksOf (s : Store) (userId : String) : Option (List String) :=
  (s.findUser userId).map (fun u => u.bookmarks)

/-! ## The client: the auth slice -/

/-- A user object as the client holds it: the fields the reducer reads or writes,
and two of the fields it carries along. -/
structure ClientUser where
  _id : String
  username : String
  profilePicture : String
  followers : List String
  following : List String
  deriving DecidableEq

/-- The state of the slice `auth`. -/
structure AuthState where
  user : Option ClientUser
  suggestedUsers : List ClientUser
  userProfile : Option ClientUser
  selectedUser : Option ClientUser
  deriving DecidableEq

/-- The expression that rewrites the followers of a user matching `userId`:
the id of the current user is appended for "follow" and filtered out otherwise. -/
def newFollowers (actionType : String) (followers : List String) (currentId : String) :
    List String :=
  if actionType = "follow" then followers ++ [currentId]
  else followers.filter (fun id => decide (id ≠ currentId))

/-- Whether rewriting the followers of the user object `p` reads `state.user._id`:
`p` matches `userId`, and either the action is "follow", whose array literal holds
the id, or the followers are not empty, so that the filter callback runs. -/
def readsCurrentId (userId actionType : String) (p : ClientUser) : Bool :=
  decide (p._id = userId) && (decide (actionType = "follow") || !p.followers.isEmpty)

/-- The reducer `updateFollowStatus` of `authSlice.js` on the payload
`(userId, actionType)`.  The result is `none` when the reducer throws: with
`state.user` null, reading `state.user._id` is a TypeError; when it is not read,
filtering the empty followers of a matching user leaves the state as it was. -/
def updateFollowStatus (state : AuthState) (userId actionType : String) : Option AuthState :=
  let user1 : Option ClientUser :=
    match state.user with
    | Option.none => Option.none
    | some u =>
      if actionType = "follow" then
        if userId ∈ u.following then some u
        else some { u with following := u.following ++ [userId] }
      else if actionType = "unfollow" then
        some { u with following := u.following.filter (fun id => decide (id ≠ userId)) }
      else some u
  match user1 with
  | some u =>
    let suggested := state.suggestedUsers.map (fun user =>
      if user._id = userId then
        { user with followers := newFollowers actionType user.followers u._id }
      else user)
    let profile := state.userProfile.map (fun p =>
      if p._id = userId then { p with followers := newFollowers actionType p.followers u._id }
      else p)
    let selected := state.selectedUser.map (fun p =>
      if p._id = userId then { p with followers := newFollowers actionType p.followers u._id }
      else p)
    some ⟨some u, suggested, profile, selected⟩
  | Option.none =>
    if state.suggestedUsers.any (readsCurrentId userId actionType) then Option.none
    else if (state.userProfile.map (readsCurrentId userId actionType)).getD false then
      Option.none
    else if (state.selectedUser.map (readsCurrentId userId actionType)).getD false then
      Option.none
    else some state

/-- The client state of bob, who follows carol, looking at the profile of alice. -/
def demoAuthState : AuthState :=
  { user := some ⟨"bob", "Bob", "b.png", [], ["carol"]⟩,
    suggestedUsers := [⟨"alice", "Alice", "a.png", [], []⟩, ⟨"carol", "Carol", "c.png", ["bob"], []⟩],
    userProfile := some ⟨"alice", "Alice", "a.png", [], []⟩,
    selectedUser := Option.none }

/-! ## The client: real-time messages -/

/-- The action that the hook `useGetRTM` dispatches. -/
inductive ChatAction where
  | setMessages (payload : List JsVal)

/-- The payload of a chat action. -/
def ChatAction.payload : ChatAction → List JsVal
  | ChatAction.setMessages payload => payload

/-- The function `messageHandler` of `useGetRTM`, closed over the `messages` that
`useSelector` returned in the render that registered it. -/
def messageHandler (messages : List JsVal) (newMessage : JsVal) : ChatAction :=
  ChatAction.setMessages (messages ++ [newMessage])

/-- The effect of the hook `useGetRTM`: the listeners it registers on the socket,
by event name; none when there is no socket. -/
def useGetRTM (messages : List JsVal) (socket : Bool) : List (String × (JsVal → ChatAction)) :=
  if !socket then [] else [("newMessage", messageHandler messages)]

/-- The actions dispatched when the socket delivers an event to the listeners. -/
def dispatchedOn (listeners : List (String × (JsVal → ChatAction))) (event : String)
    (payload : JsVal) : List ChatAction :=
  (listeners.filter (fun l => decide (l.1 = event))).map (fun l => l.2 payload)

/-! ## Helper lemmas -/

theorem findUser_updatePostLikes (s : Store) (id : String) (f : List String → List String)
    (u : String) : (s.updatePostLikes id f).findUser u = s.findUser u := rfl

theorem emits_append (xs ys : List Effect) : emits (xs ++ ys) = emits xs ++ emits ys := by
  induction xs with
  | nil => rfl
  | cons x xs ih => cases x <;> simp [emits, ih]

theorem socketLookups_append (xs ys : List Effect) :
    socketLookups (xs ++ ys) = socketLookups xs ++ socketLookups ys := by
  induction xs with
  | nil => rfl
  | cons x xs ih => cases x <;> simp [socketLookups, ih]

/-- A room named by a socket id holds at most the one connection with that id. -/
theorem filter_socketId_of_nodup (conns : List Connection) (c : Connection)
    (hnd : (conns.map (fun x => x.socketId)).Nodup) (hc : c ∈ conns) :
    conns.filter (fun x => decide (x.socketId = c.socketId)) = [c] := by
  induction conns with
  | nil => simp at hc
  | cons x xs ih =>
    rw [List.map_cons, List.nodup_cons] at hnd
    rcases List.mem_cons.mp hc with hx | hx
    · subst hx
      have hnone : xs.filter (fun x => decide (x.socketId = c.socketId)) = [] := by
        rw [List.filter_eq_nil_iff]
        intro y hy hyc
        exact hnd.1 (List.mem_map.mpr ⟨y, hy, by simpa using hyc⟩)
      simp [List.filter_cons, hnone]
    · have hne : x.socketId ≠ c.socketId := by
        intro heq
        exact hnd.1 (List.mem_map.mpr ⟨c, hx, heq.symm⟩)
      simp [List.filter_cons, hne, ih hnd.2 hx]

/-- The emits of `likePost`, in closed form. -/
theorem emits_likePost (env : Env) (s : Store) (reqId postId : String) :
    emits (likePost env s reqId postId).effects =
      match s.findPost postId with
      | Option.none => []
      | some post =>
        if env.faults.actorLookup = false ∧ post.author ≠ reqId ∧
            env.faults.socketLookup = false ∧ env.faults.emit = false then
          [(Target.room (env.getReceiverSocketId post.author), "notification",
            [("type", JsVal.str "like"), ("userId", JsVal.str reqId),
             ("userDetails", selectSummary (s.findUser reqId)), ("postId", JsVal.str postId),
             ("message", JsVal.str "Your post was liked")])]
        else [] := by
  unfold likePost
  cases hp : s.findPost postId with
  | none => simp [emits]
  | some post =>
    by_cases h1 : env.faults.actorLookup = true
    · simp [h1, emits]
    · by_cases h2 : post.author = reqId
      · simp [h1, h2, emits]
      · by_cases h3 : env.faults.socketLookup = true
        · simp [h1, h2, h3, emits]
        · by_cases h4 : env.faults.emit = true
          · simp [h1, h2, h3, h4, emits]
          · simp [h1, h2, h3, h4, emits, findUser_updatePostLikes]

/-- The emits of `dislikePost`, in closed form. -/
theorem emits_dislikePost (env : Env) (s : Store) (reqId postId : String) :
    emits (dislikePost env s reqId postId).effects =
      match s.findPost postId with
      | Option.none => []
      | some post =>
        if env.faults.actorLookup = false ∧ post.author ≠ reqId ∧
            env.faults.socketLookup = false ∧ env.faults.emit = false then
          [(Target.room (env.getReceiverSocketId post.author), "notification",
            [("type", JsVal.str "dislike"), ("userId", JsVal.str reqId),
             ("userDetails", selectSummary (s.findUser reqId)), ("postId", JsVal.str postId),
             ("message", JsVal.str "Your post was liked")])]
        else [] := by
  unfold dislikePost
  cases hp : s.findPost postId with
  | none => simp [emits]
  | some post =>
    by_cases h1 : env.faults.actorLookup = true
    · simp [h1, emits]
    · by_cases h2 : post.author = reqId
      · simp [h1, h2, emits]
      · by_cases h3 : env.faults.socketLookup = true
        · simp [h1, h2, h3, emits]
        · by_cases h4 : env.faults.emit = true
          · simp [h1, h2, h3, h4, emits]
          · simp [h1, h2, h3, h4, emits, findUser_updatePostLikes]

/-- The response of `likePost` for an existing post when nothing throws. -/
theorem response_likePost (g : String → Option String) (s : Store) (reqId postId : String)
    (post : PostDoc) (h : s.findPost postId = some post) :
    (likePost ⟨g, Faults.none⟩ s reqId postId).response =
      some ⟨200, [("message", JsVal.str "Post liked"), ("success", JsVal.bool true)]⟩ := by
  unfold likePost
  rw [h]
  by_cases hne : post.author = reqId
  · simp [hne, Faults.none]
  · simp [hne, Faults.none]

/-- The response of `dislikePost` for an existing post when nothing throws. -/
theorem response_dislikePost (g : String → Option String) (s : Store) (reqId postId : String)
    (post : PostDoc) (h : s.findPost postId = some post) :
    (dislikePost ⟨g, Faults.none⟩ s reqId postId).response =
      some ⟨200, [("message", JsVal.str "Post disliked"), ("success", JsVal.bool true)]⟩ := by
  unfold dislikePost
  rw [h]
  by_cases hne : post.author = reqId
  · simp [hne, Faults.none]
  · simp [hne, Faults.none]

/-- The store `likePost` leaves for an existing post, whatever throws afterwards. -/
theorem store_likePost (env : Env) (s : Store) (reqId postId : String)
    (post : PostDoc) (h : s.findPost postId = some post) :
    (likePost env s reqId postId).store =
      s.updatePostLikes postId (fun likes => addToSet likes reqId) := by
  unfold likePost
  rw [h]
  by_cases h1 : env.faults.actorLookup = true
  · simp [h1]
  · by_cases h2 : post.author = reqId
    · simp [h1, h2]
    · by_cases h3 : env.faults.socketLookup = true
      · simp [h1, h2, h3]
      · by_cases h4 : env.faults.emit = true
        · simp [h1, h2, h3, h4]
        · simp [h1, h2, h3, h4]

/-! ## Like and dislike notifications -/

/-- C1: for an existing post, `likePost` emits a notification exactly when the
post author differs from the requesting user (in an execution where no collaborator
call throws); when the requester is the author, whatever throws, nothing is emitted
and the socket lookup is not even made. -/
theorem likePost_emits_iff_not_owner (g : String → Option String) (s : Store)
    (reqId postId : String) (post : PostDoc) (h : s.findPost postId = some post) :
    ((∃ n, emits (likePost ⟨g, Faults.none⟩ s reqId postId).effects =
        [(Target.room (g post.author), "notification", n)]) ↔ post.author ≠ reqId) ∧
    (emits (likePost ⟨g, Faults.none⟩ s reqId postId).effects ≠ [] ↔ post.author ≠ reqId) ∧
    (∀ faults : Faults, post.author = reqId →
      emits (likePost ⟨g, faults⟩ s reqId postId).effects = [] ∧
      socketLookups (likePost ⟨g, faults⟩ s reqId postId).effects = []) := by
  refine ⟨?_, ?_, ?_⟩
  · rw [emits_likePost, h]
    by_cases hne : post.author = reqId
    · simp [hne, Faults.none]
    · simp [hne, Faults.none]
  · rw [emits_likePost, h]
    by_cases hne : post.author = reqId
    · simp [hne, Faults.none]
    · simp [hne, Faults.none]
  · intro faults heq
    refine ⟨?_, ?_⟩
    · rw [emits_likePost, h]
      simp [heq]
    · unfold likePost
      rw [h]
      by_cases h1 : faults.actorLookup = true
      · simp [h1, socketLookups]
      · simp [h1, heq, socketLookups]

/-- Witness for C1 on the running example: bob likes the post of alice. -/
theorem likePost_emits_iff_not_owner_witness :
    demoStore.findPost "p1" = some ⟨"p1", "alice", [], []⟩ ∧
    (emits (likePost ⟨demoLookup, Faults.none⟩ demoStore "bob" "p1").effects ≠ [] ↔
      "alice" ≠ "bob") :=
  ⟨by decide,
   (likePost_emits_iff_not_owner demoLookup demoStore "bob" "p1" ⟨"p1", "alice", [], []⟩
      (by decide)).2.1⟩

/-- C2: `dislikePost` emits under the same condition and to the same target as
`likePost` on the same environment, store and request, and its notification is the
one of `likePost` with the field `type` holding "dislike" instead of "like". -/
theorem dislikePost_symmetric_to_likePost (env : Env) (s : Store) (reqId postId : String) :
    emits (dislikePost env s reqId postId).effects =
      (emits (likePost env s reqId postId).effects).map
        (fun e => (e.1, e.2.1, JsObj.set e.2.2 "type" (JsVal.str "dislike"))) ∧
    (∀ e ∈ emits (likePost env s reqId postId).effects,
      JsObj.get e.2.2 "type" = some (JsVal.str "like")) ∧
    (∀ e ∈ emits (dislikePost env s reqId postId).effects,
      JsObj.get e.2.2 "type" = some (JsVal.str "dislike")) := by
  rw [emits_likePost, emits_dislikePost]
  cases s.findPost postId with
  | none => simp
  | some post =>
    by_cases hc : env.faults.actorLookup = false ∧ post.author ≠ reqId ∧
        env.faults.socketLookup = false ∧ env.faults.emit = false
    · dsimp only
      simp only [if_pos hc]
      refine ⟨?_, ?_, ?_⟩
      · simp [JsObj.set]
      · intro e he
        rw [List.mem_singleton] at he
        subst he
        simp [JsObj.get]
      · intro e he
        rw [List.mem_singleton] at he
        subst he
        simp [JsObj.get]
    · dsimp only
      simp only [if_neg hc]
      simp

/-- C3: every emit of `likePost` is addressed to the room that the socket lookup
returns for the author of the liked post, under the event name "notification";
there is at most one emit, none to the whole server, and every connection that
receives it carries the socket id looked up for the author. -/
theorem likePost_addresses_post_owner_only (env : Env) (s : Store) (reqId postId : String)
    (conns : List Connection) :
    (∀ e ∈ emits (likePost env s reqId postId).effects,
      ∃ post, s.findPost postId = some post ∧
        e.1 = Target.room (env.getReceiverSocketId post.author) ∧ e.2.1 = "notification") ∧
    (emits (likePost env s reqId postId).effects).length ≤ 1 ∧
    (∀ d ∈ deliveries conns (likePost env s reqId postId).effects,
      ∃ post, s.findPost postId = some post ∧
        env.getReceiverSocketId post.author = some d.1.socketId ∧ d.2.1 = "notification") := by
  rw [deliveries, emits_likePost]
  cases hp : s.findPost postId with
  | none => simp [fanout]
  | some post =>
    by_cases hc : env.faults.actorLookup = false ∧ post.author ≠ reqId ∧
        env.faults.socketLookup = false ∧ env.faults.emit = false
    · dsimp only
      simp only [if_pos hc]
      refine ⟨?_, by simp, ?_⟩
      · intro e he
        rw [List.mem_singleton] at he
        subst he
        exact ⟨post, rfl, rfl, rfl⟩
      · intro d hd
        refine ⟨post, rfl, ?_⟩
        cases hg : env.getReceiverSocketId post.author with
        | none => simp [fanout, deliveredTo, hg] at hd
        | some sid =>
          simp [fanout, deliveredTo, hg] at hd
          obtain ⟨c, ⟨_, hcs⟩, hdc⟩ := hd
          subst hdc
          simp [hcs]
    · dsimp only
      simp only [if_neg hc]
      simp [fanout]

/-- C5: when the socket lookup yields no id for the author of an existing post,
`likePost` and `dislikePost` deliver to no connection, address no emit to the whole
server, and still answer 200 with success true. -/
theorem offline_owner_is_silent_noop (g : String → Option String) (s : Store)
    (reqId postId : String) (post : PostDoc) (conns : List Connection)
    (h : s.findPost postId = some post) (hoff : g post.author = Option.none) :
    deliveries conns (likePost ⟨g, Faults.none⟩ s reqId postId).effects = [] ∧
    deliveries conns (dislikePost ⟨g, Faults.none⟩ s reqId postId).effects = [] ∧
    (∀ e ∈ emits (likePost ⟨g, Faults.none⟩ s reqId postId).effects, e.1 ≠ Target.everyone) ∧
    (∀ e ∈ emits (dislikePost ⟨g, Faults.none⟩ s reqId postId).effects,
      e.1 ≠ Target.everyone) ∧
    (likePost ⟨g, Faults.none⟩ s reqId postId).response =
      some ⟨200, [("message", JsVal.str "Post liked"), ("success", JsVal.bool true)]⟩ ∧
    (dislikePost ⟨g, Faults.none⟩ s reqId postId).response =
      some ⟨200, [("message", JsVal.str "Post disliked"), ("success", JsVal.bool true)]⟩ := by
  refine ⟨?_, ?_, ?_, ?_, response_likePost g s reqId postId post h,
    response_dislikePost g s reqId postId post h⟩
  · rw [deliveries, emits_likePost, h]
    by_cases hne : post.author = reqId
    · simp [hne, fanout]
    · simp [hne, Faults.none, fanout, deliveredTo, hoff]
  · rw [deliveries, emits_dislikePost, h]
    by_cases hne : post.author = reqId
    · simp [hne, fanout]
    · simp [hne, Faults.none, fanout, deliveredTo, hoff]
  · rw [emits_likePost, h]
    by_cases hne : post.author = reqId
    · simp [hne]
    · simp [hne, Faults.none]
  · rw [emits_dislikePost, h]
    by_cases hne : post.author = reqId
    · simp [hne]
    · simp [hne, Faults.none]

/-- Witness for C5: nobody is online and bob likes the post of alice. -/
theorem offline_owner_is_silent_noop_witness :
    deliveries demoConns (likePost ⟨offlineLookup, Faults.none⟩ demoStore "bob" "p1").effects
      = [] :=
  (offline_owner_is_silent_noop offlineLookup demoStore "bob" "p1" ⟨"p1", "alice", [], []⟩
    demoConns (by decide) rfl).1

/-- C6, as the code has it: for an existing post `likePost` sends the 200 response
when no call of the notification step throws, and whatever throws there the like
write stays in the store. -/
theorem likePost_responds_when_notification_completes (g : String → Option String)
    (s : Store) (reqId postId : String) (post : PostDoc)
    (h : s.findPost postId = some post) :
    (likePost ⟨g, Faults.none⟩ s reqId postId).response =
      some ⟨200, [("message", JsVal.str "Post liked"), ("success", JsVal.bool true)]⟩ ∧
    (∀ faults : Faults, (likePost ⟨g, faults⟩ s reqId postId).store =
      s.updatePostLikes postId (fun likes => addToSet likes reqId)) :=
  ⟨response_likePost g s reqId postId post h,
   fun faults => store_likePost ⟨g, faults⟩ s reqId postId post h⟩

/-- Witness for the amended C6 on the running example. -/
theorem likePost_responds_when_notification_completes_witness :
    (likePost ⟨demoLookup, Faults.none⟩ demoStore "bob" "p1").response =
      some ⟨200, [("message", JsVal.str "Post liked"), ("success", JsVal.bool true)]⟩ :=
  (likePost_responds_when_notification_completes demoLookup demoStore "bob" "p1"
    ⟨"p1", "alice", [], []⟩ (by decide)).1

/-- C6 fails on the code: the like of bob is written, the emit throws, and the
handler ends in its empty `catch` without sending any response. -/
theorem likePost_emit_throws_no_response :
    (likePost ⟨demoLookup, ⟨false, false, true⟩⟩ demoStore "bob" "p1").store.findPost "p1"
      = some ⟨"p1", "alice", ["bob"], []⟩ ∧
    (likePost ⟨demoLookup, ⟨false, false, true⟩⟩ demoStore "bob" "p1").response.isNone
      = true := by
  decide

/-- C7, as the code has it: the like notification is the object with the fields
`type` "like", `userId` the acting user, `userDetails` the selected summary of the
actor, `postId` the liked post and `message`; the post identity is in `postId`. -/
theorem like_payload_shape (g : String → Option String) (s : Store)
    (reqId postId : String) (post : PostDoc)
    (h : s.findPost postId = some post) (hne : post.author ≠ reqId) :
    emits (likePost ⟨g, Faults.none⟩ s reqId postId).effects =
      [(Target.room (g post.author), "notification",
        [("type", JsVal.str "like"), ("userId", JsVal.str reqId),
         ("userDetails", selectSummary (s.findUser reqId)), ("postId", JsVal.str postId),
         ("message", JsVal.str "Your post was liked")])] ∧
    (∀ e ∈ emits (likePost ⟨g, Faults.none⟩ s reqId postId).effects,
      JsObj.get e.2.2 "postId" = some (JsVal.str postId)) := by
  have hform : emits (likePost ⟨g, Faults.none⟩ s reqId postId).effects =
      [(Target.room (g post.author), "notification",
        [("type", JsVal.str "like"), ("userId", JsVal.str reqId),
         ("userDetails", selectSummary (s.findUser reqId)), ("postId", JsVal.str postId),
         ("message", JsVal.str "Your post was liked")])] := by
    rw [emits_likePost, h]
    simp [hne, Faults.none]
  refine ⟨hform, ?_⟩
  intro e he
  rw [hform, List.mem_singleton] at he
  subst he
  simp [JsObj.get]

/-- Witness for the amended C7 on the running example. -/
theorem like_payload_shape_witness :
    emits (likePost ⟨demoLookup, Faults.none⟩ demoStore "bob" "p1").effects =
      [(Target.room (demoLookup "alice"), "notification",
        [("type", JsVal.str "like"), ("userId", JsVal.str "bob"),
         ("userDetails", selectSummary (demoStore.findUser "bob")), ("postId", JsVal.str "p1"),
         ("message", JsVal.str "Your post was liked")])] :=
  (like_payload_shape demoLookup demoStore "bob" "p1" ⟨"p1", "alice", [], []⟩
    (by decide) (by decide)).1

/-- C7 fails on the code: the notification of a like has no field `targetId`; the
id of the liked post is in its field `postId`. -/
theorem like_payload_has_no_targetId :
    (emits (likePost ⟨demoLookup, Faults.none⟩ demoStore "bob" "p1").effects).map
      (fun e => ((JsObj.get e.2.2 "targetId").isNone, (JsObj.get e.2.2 "postId").isSome))
      = [(true, true)] := by
  decide

/-! ## Comment and follow -/

/-- C8, as the code has it: `addComment` emits no notification, whoever comments
and whatever the request. -/
theorem addComment_never_emits (s : Store) (reqId postId : String) (text : Option String)
    (commentId : String) (conns : List Connection) :
    emits (addComment s reqId postId text commentId).effects = [] ∧
    deliveries conns (addComment s reqId postId text commentId).effects = [] := by
  have hnone : emits (addComment s reqId postId text commentId).effects = [] := by
    unfold addComment
    cases text with
    | none => simp [emits]
    | some txt =>
      by_cases ht : txt = ""
      · simp [ht, emits]
      · cases hp : s.findPost postId with
        | none => simp [ht, hp, emits]
        | some p => simp [ht, hp, emits]
  exact ⟨hnone, by rw [deliveries, hnone]; rfl⟩

/-- C8 fails on the code: bob comments on the post of alice, the handler answers
201, and nothing is delivered to any connection of alice. -/
theorem addComment_by_other_user_delivers_nothing :
    (demoStore.findPost "p1").map (fun p => p.author) = some "alice" ∧
    (addComment demoStore "bob" "p1" (some "nice") "c1").response.map (fun r => r.status)
      = some 201 ∧
    (deliveries demoConns (addComment demoStore "bob" "p1" (some "nice") "c1").effects).length
      = 0 := by
  decide

/-- C9, as the code has it: `followOrUnfollow` emits no notification, whatever the
action it ends with. -/
theorem followOrUnfollow_never_emits (s : Store) (reqId paramId : String)
    (conns : List Connection) :
    emits (followOrUnfollow s reqId paramId).effects = [] ∧
    deliveries conns (followOrUnfollow s reqId paramId).effects = [] := by
  have hnone : emits (followOrUnfollow s reqId paramId).effects = [] := by
    unfold followOrUnfollow
    by_cases hself : reqId = paramId
    · simp [hself, emits]
    · cases hu : s.findUser reqId with
      | none => simp [hself, hu, emits]
      | some cu =>
        cases hv : s.findUser paramId with
        | none => simp [hself, hu, hv, emits]
        | some tu =>
          by_cases hf : paramId ∈ cu.following
          · simp [hself, hu, hv, hf, emits]
          · simp [hself, hu, hv, hf, emits]
  exact ⟨hnone, by rw [deliveries, hnone]; rfl⟩

/-- C9 fails on the code: bob follows alice, the call ends with action "followed",
and nothing is delivered to any connection of alice. -/
theorem follow_delivers_nothing :
    (followOrUnfollow demoStore "bob" "alice").response.map
      (fun r => (r.status, (JsObj.get r.body "action").map
        (fun v => match v with
          | JsVal.str a => a
          | _ => ""))) = some (200, some "followed") ∧
    (deliveries demoConns (followOrUnfollow demoStore "bob" "alice").effects).length = 0 := by
  decide

/-- C10: a call of `followOrUnfollow` whose requester id equals the target id
answers 400 with success false, performs no read and no write on the user store,
and leaves the store (so both lists of that user) as it was. -/
theorem followOrUnfollow_rejects_self (s : Store) (id : String) :
    (followOrUnfollow s id id).response =
      some ⟨400, [("message", JsVal.str "You cannot follow/unfollow yourself"),
        ("success", JsVal.bool false)]⟩ ∧
    (followOrUnfollow s id id).effects = [] ∧
    (followOrUnfollow s id id).store = s := by
  simp [followOrUnfollow]

/-! ## Ordering of write and emit, and what the notification reads -/

/-- The store `dislikePost` leaves for an existing post, whatever throws afterwards. -/
theorem store_dislikePost (env : Env) (s : Store) (reqId postId : String)
    (post : PostDoc) (h : s.findPost postId = some post) :
    (dislikePost env s reqId postId).store =
      s.updatePostLikes postId (fun likes => pull likes reqId) := by
  unfold dislikePost
  rw [h]
  by_cases h1 : env.faults.actorLookup = true
  · simp [h1]
  · by_cases h2 : post.author = reqId
    · simp [h1, h2]
    · by_cases h3 : env.faults.socketLookup = true
      · simp [h1, h2, h3]
      · by_cases h4 : env.faults.emit = true
        · simp [h1, h2, h3, h4]
        · simp [h1, h2, h3, h4]

/-- For an existing post the effects of `likePost` start with the read and the write. -/
theorem effects_likePost_prefix (env : Env) (s : Store) (reqId postId : String)
    (post : PostDoc) (h : s.findPost postId = some post) :
    ∃ tail, (likePost env s reqId postId).effects =
      Effect.postFindById postId :: Effect.postUpdateOne postId :: Effect.postSave postId
        :: tail := by
  unfold likePost
  rw [h]
  by_cases h1 : env.faults.actorLookup = true
  · exact ⟨[], by simp [h1]⟩
  · by_cases h2 : post.author = reqId
    · exact ⟨_, by simp [h1, h2]; rfl⟩
    · by_cases h3 : env.faults.socketLookup = true
      · exact ⟨_, by simp [h1, h2, h3]; rfl⟩
      · by_cases h4 : env.faults.emit = true
        · exact ⟨_, by simp [h1, h2, h3, h4]; rfl⟩
        · exact ⟨_, by simp [h1, h2, h3, h4]; rfl⟩

/-- For an existing post the effects of `dislikePost` start with the read and the write. -/
theorem effects_dislikePost_prefix (env : Env) (s : Store) (reqId postId : String)
    (post : PostDoc) (h : s.findPost postId = some post) :
    ∃ tail, (dislikePost env s reqId postId).effects =
      Effect.postFindById postId :: Effect.postUpdateOne postId :: Effect.postSave postId
        :: tail := by
  unfold dislikePost
  rw [h]
  by_cases h1 : env.faults.actorLookup = true
  · exact ⟨[], by simp [h1]⟩
  · by_cases h2 : post.author = reqId
    · exact ⟨_, by simp [h1, h2]; rfl⟩
    · by_cases h3 : env.faults.socketLookup = true
      · exact ⟨_, by simp [h1, h2, h3]; rfl⟩
      · by_cases h4 : env.faults.emit = true
        · exact ⟨_, by simp [h1, h2, h3, h4]; rfl⟩
        · exact ⟨_, by simp [h1, h2, h3, h4]; rfl⟩

/-- In a trace that starts with a read, a write and a save, whatever stands before an
emit contains the write and the save. -/
theorem write_before_emit_of_prefix (postId : String) (tail pre rest : List Effect)
    (t : Target) (ev : String) (p : JsObj)
    (h : Effect.postFindById postId :: Effect.postUpdateOne postId :: Effect.postSave postId
        :: tail = pre ++ Effect.emit t ev p :: rest) :
    Effect.postUpdateOne postId ∈ pre ∧ Effect.postSave postId ∈ pre := by
  match pre, h with
  | [], h => simp at h
  | [_], h => simp at h
  | [_, _], h => simp at h
  | a :: b :: c :: pre1, h =>
    simp only [List.cons_append, List.cons.injEq] at h
    obtain ⟨_, hb, hc, _⟩ := h
    subst hb
    subst hc
    simp

/-- When the post is not found, `likePost` reads once and answers 404. -/
theorem likePost_not_found (env : Env) (s : Store) (reqId postId : String)
    (h : s.findPost postId = Option.none) :
    likePost env s reqId postId = ⟨s, [Effect.postFindById postId],
      some ⟨404, [("message", JsVal.str "Post not found"), ("success", JsVal.bool false)]⟩⟩ := by
  unfold likePost
  rw [h]

/-- When the post is not found, `dislikePost` reads once and answers 404. -/
theorem dislikePost_not_found (env : Env) (s : Store) (reqId postId : String)
    (h : s.findPost postId = Option.none) :
    dislikePost env s reqId postId = ⟨s, [Effect.postFindById postId],
      some ⟨404, [("message", JsVal.str "Post not found"), ("success", JsVal.bool false)]⟩⟩ := by
  unfold dislikePost
  rw [h]

/-- A trace made of one read holds no emit. -/
theorem no_emit_in_single_read (postId : String) (pre rest : List Effect)
    (t : Target) (ev : String) (p : JsObj) :
    [Effect.postFindById postId] ≠ pre ++ Effect.emit t ev p :: rest := by
  intro h
  match pre, h with
  | [], h => simp at h
  | _ :: pre1, h => simp at h

/-- C11: in every execution of `likePost` and of `dislikePost`, whatever stands
before a notification emit in the trace contains the update of the likes and the
save, and the store then holds the updated likes; when the post is not found the
trace is the one read, nothing is written, nothing is emitted, and the answer is 404. -/
theorem emit_only_after_like_write (env : Env) (s : Store) (reqId postId : String) :
    (∀ pre t ev p rest,
      (likePost env s reqId postId).effects = pre ++ Effect.emit t ev p :: rest →
        Effect.postUpdateOne postId ∈ pre ∧ Effect.postSave postId ∈ pre ∧
        (likePost env s reqId postId).store =
          s.updatePostLikes postId (fun likes => addToSet likes reqId)) ∧
    (∀ pre t ev p rest,
      (dislikePost env s reqId postId).effects = pre ++ Effect.emit t ev p :: rest →
        Effect.postUpdateOne postId ∈ pre ∧ Effect.postSave postId ∈ pre ∧
        (dislikePost env s reqId postId).store =
          s.updatePostLikes postId (fun likes => pull likes reqId)) ∧
    (s.findPost postId = Option.none →
      (likePost env s reqId postId).effects = [Effect.postFindById postId] ∧
      (likePost env s reqId postId).store = s ∧
      (likePost env s reqId postId).response.map (fun r => r.status) = some 404 ∧
      (dislikePost env s reqId postId).effects = [Effect.postFindById postId] ∧
      (dislikePost env s reqId postId).store = s ∧
      (dislikePost env s reqId postId).response.map (fun r => r.status) = some 404) := by
  refine ⟨?_, ?_, ?_⟩
  · intro pre t ev p rest heq
    cases hp : s.findPost postId with
    | none =>
      rw [likePost_not_found env s reqId postId hp] at heq
      exact absurd heq (no_emit_in_single_read postId pre rest t ev p)
    | some post =>
      obtain ⟨tail, ht⟩ := effects_likePost_prefix env s reqId postId post hp
      rw [ht] at heq
      have hw := write_before_emit_of_prefix postId tail pre rest t ev p heq
      exact ⟨hw.1, hw.2, store_likePost env s reqId postId post hp⟩
  · intro pre t ev p rest heq
    cases hp : s.findPost postId with
    | none =>
      rw [dislikePost_not_found env s reqId postId hp] at heq
      exact absurd heq (no_emit_in_single_read postId pre rest t ev p)
    | some post =>
      obtain ⟨tail, ht⟩ := effects_dislikePost_prefix env s reqId postId post hp
      rw [ht] at heq
      have hw := write_before_emit_of_prefix postId tail pre rest t ev p heq
      exact ⟨hw.1, hw.2, store_dislikePost env s reqId postId post hp⟩
  · intro hp
    rw [likePost_not_found env s reqId postId hp, dislikePost_not_found env s reqId postId hp]
    simp

/-- The display fields decide the selected summary of a user. -/
theorem selectSummary_of_displayFields (a b : Option UserDoc)
    (h : a.map displayFields = b.map displayFields) : selectSummary a = selectSummary b := by
  cases a with
  | none =>
    cases b with
    | none => rfl
    | some v => simp at h
  | some u =>
    cases b with
    | none => simp at h
    | some v =>
      simp only [Option.map_some', Option.some.injEq, displayFields, Prod.mk.injEq] at h
      simp [selectSummary, h.1, h.2.1, h.2.2]

/-- The handler `likePost` never writes to the user collection. -/
theorem likePost_keeps_users (env : Env) (s : Store) (reqId postId : String) :
    (likePost env s reqId postId).store.users = s.users ∧
    (∀ u, Effect.userFindByIdAndUpdate u ∉ (likePost env s reqId postId).effects) := by
  cases hp : s.findPost postId with
  | none =>
    rw [likePost_not_found env s reqId postId hp]
    simp
  | some post =>
    refine ⟨by rw [store_likePost env s reqId postId post hp]; rfl, ?_⟩
    intro u
    unfold likePost
    rw [hp]
    by_cases h1 : env.faults.actorLookup = true
    · simp [h1]
    · by_cases h2 : post.author = reqId
      · simp [h1, h2]
      · by_cases h3 : env.faults.socketLookup = true
        · simp [h1, h2, h3]
        · by_cases h4 : env.faults.emit = true
          · simp [h1, h2, h3, h4]
          · simp [h1, h2, h3, h4]

/-- The handler `dislikePost` never writes to the user collection. -/
theorem dislikePost_keeps_users (env : Env) (s : Store) (reqId postId : String) :
    (dislikePost env s reqId postId).store.users = s.users ∧
    (∀ u, Effect.userFindByIdAndUpdate u ∉ (dislikePost env s reqId postId).effects) := by
  cases hp : s.findPost postId with
  | none =>
    rw [dislikePost_not_found env s reqId postId hp]
    simp
  | some post =>
    refine ⟨by rw [store_dislikePost env s reqId postId post hp]; rfl, ?_⟩
    intro u
    unfold dislikePost
    rw [hp]
    by_cases h1 : env.faults.actorLookup = true
    · simp [h1]
    · by_cases h2 : post.author = reqId
      · simp [h1, h2]
      · by_cases h3 : env.faults.socketLookup = true
        · simp [h1, h2, h3]
        · by_cases h4 : env.faults.emit = true
          · simp [h1, h2, h3, h4]
          · simp [h1, h2, h3, h4]

/-- C12: two stores with the same posts in which the acting user has the same id,
username and profile picture give the same like and dislike notifications, whatever
the other fields of the actor hold; and neither handler writes to the user
collection. -/
theorem notification_reads_display_fields_only (env : Env) (s1 s2 : Store)
    (reqId postId : String) (hposts : s1.posts = s2.posts)
    (hactor : (s1.findUser reqId).map displayFields = (s2.findUser reqId).map displayFields) :
    emits (likePost env s1 reqId postId).effects = emits (likePost env s2 reqId postId).effects ∧
    emits (dislikePost env s1 reqId postId).effects =
      emits (dislikePost env s2 reqId postId).effects ∧
    (likePost env s1 reqId postId).store.users = s1.users ∧
    (dislikePost env s1 reqId postId).store.users = s1.users ∧
    (∀ u, Effect.userFindByIdAndUpdate u ∉ (likePost env s1 reqId postId).effects) ∧
    (∀ u, Effect.userFindByIdAndUpdate u ∉ (dislikePost env s1 reqId postId).effects) := by
  have hfind : s1.findPost postId = s2.findPost postId := by
    simp [Store.findPost, hposts]
  have hsum := selectSummary_of_displayFields _ _ hactor
  refine ⟨?_, ?_, (likePost_keeps_users env s1 reqId postId).1,
    (dislikePost_keeps_users env s1 reqId postId).1,
    (likePost_keeps_users env s1 reqId postId).2,
    (dislikePost_keeps_users env s1 reqId postId).2⟩
  · rw [emits_likePost, emits_likePost, hfind, hsum]
  · rw [emits_dislikePost, emits_dislikePost, hfind, hsum]

/-- Witness for C12: the two example stores differ in the email, password hash, bio
and followers of bob, and his like of the post of alice is notified alike. -/
theorem notification_reads_display_fields_only_witness :
    demoStore.users ≠ demoStoreOtherSecrets.users ∧
    emits (likePost ⟨demoLookup, Faults.none⟩ demoStore "bob" "p1").effects =
      emits (likePost ⟨demoLookup, Faults.none⟩ demoStoreOtherSecrets "bob" "p1").effects :=
  ⟨by decide,
   (notification_reads_display_fields_only ⟨demoLookup, Faults.none⟩ demoStore
      demoStoreOtherSecrets "bob" "p1" (by decide) (by decide)).1⟩

/-! ## Authorization of `deletePost` -/

/-- C19: for an existing post whose author differs from the requesting user,
`deletePost` answers 403 "Unauthorized" after the one read and changes nothing: the
store is the one it was given, so the post, the posts list of its author and every
comment of the post are still there. -/
theorem deletePost_unauthorized_changes_nothing (s : Store) (reqId postId : String)
    (post : PostDoc) (h : s.findPost postId = some post) (hne : post.author ≠ reqId) :
    (deletePost s reqId postId).response =
      some ⟨403, [("message", JsVal.str "Unauthorized")]⟩ ∧
    (deletePost s reqId postId).effects = [Effect.postFindById postId] ∧
    (deletePost s reqId postId).store = s ∧
    (deletePost s reqId postId).store.findPost postId = some post ∧
    (deletePost s reqId postId).store.findUser post.author = s.findUser post.author ∧
    (deletePost s reqId postId).store.comments.filter (fun c => decide (c.post = postId)) =
      s.comments.filter (fun c => decide (c.post = postId)) := by
  have hout : deletePost s reqId postId =
      ⟨s, [Effect.postFindById postId], some ⟨403, [("message", JsVal.str "Unauthorized")]⟩⟩ := by
    unfold deletePost
    rw [h]
    simp [hne]
  rw [hout]
  exact ⟨rfl, rfl, rfl, h, rfl, rfl⟩

/-- Witness for C19: bob asks to delete the commented post of alice. -/
theorem deletePost_unauthorized_changes_nothing_witness :
    (deletePost demoStoreCommented "bob" "p1").response =
      some ⟨403, [("message", JsVal.str "Unauthorized")]⟩ ∧
    (deletePost demoStoreCommented "bob" "p1").store = demoStoreCommented :=
  ⟨(deletePost_unauthorized_changes_nothing demoStoreCommented "bob" "p1"
      ⟨"p1", "alice", [], ["c1"]⟩ (by decide) (by decide)).1,
   (deletePost_unauthorized_changes_nothing demoStoreCommented "bob" "p1"
      ⟨"p1", "alice", [], ["c1"]⟩ (by decide) (by decide)).2.2.1⟩

/-! ## Follow and unfollow -/

/-- After the first match is updated, a search with the same test finds the updated
element, provided the update keeps the test true. -/
theorem find_updateFirst_same {α : Type} (p : α → Bool) (f : α → α) (xs : List α) (u : α)
    (hfind : xs.find? p = some u) (hkeep : p (f u) = true) :
    (updateFirst p f xs).find? p = some (f u) := by
  induction xs with
  | nil => simp at hfind
  | cons x rest ih =>
    by_cases hx : p x = true
    · have hxu : x = u := by simpa [List.find?_cons, hx] using hfind
      subst hxu
      simp [updateFirst, hx, List.find?_cons, hkeep]
    · have hrest : rest.find? p = some u := by simpa [List.find?_cons, hx] using hfind
      simp [updateFirst, hx, List.find?_cons, ih hrest]

/-- Updating the first match of one test leaves the search for a test that excludes
it, before and after the update, as it was. -/
theorem find_updateFirst_other {α : Type} (p q : α → Bool) (f : α → α) (xs : List α)
    (hq : ∀ x, p x = true → q x = false) (hqf : ∀ x, p x = true → q (f x) = false) :
    (updateFirst p f xs).find? q = xs.find? q := by
  induction xs with
  | nil => rfl
  | cons x rest ih =>
    by_cases hx : p x = true
    · simp [updateFirst, hx, List.find?_cons, hq x hx, hqf x hx]
    · simp [updateFirst, hx, List.find?_cons, ih]

/-- The user found under the updated id after `updateUser`, when the update keeps
the id. -/
theorem findUser_updateUser_same (s : Store) (id : String) (f : UserDoc → UserDoc)
    (u : UserDoc) (hfind : s.findUser id = some u) (hid : (f u)._id = id) :
    (s.updateUser id f).findUser id = some (f u) := by
  unfold Store.updateUser Store.findUser
  exact find_updateFirst_same _ f s.users u hfind (by simpa using hid)

/-- The user found under another id after `updateUser`, when the update keeps ids. -/
theorem findUser_updateUser_other (s : Store) (id other : String) (f : UserDoc → UserDoc)
    (hne : id ≠ other) (hid : ∀ u, (f u)._id = u._id) :
    (s.updateUser id f).findUser other = s.findUser other := by
  unfold Store.updateUser Store.findUser
  apply find_updateFirst_other
  · intro x hx
    have hx1 : x._id = id := by simpa using hx
    simp [hx1, hne]
  · intro x hx
    have hx1 : x._id = id := by simpa using hx
    simp [hid, hx1, hne]

theorem mem_addToSet (xs : List String) (x : String) : x ∈ addToSet xs x := by
  unfold addToSet
  by_cases h : x ∈ xs
  · simp [h]
  · simp [h]

theorem not_mem_pull (xs : List String) (x : String) : x ∉ pull xs x := by
  simp [pull]

/-- The outcome of `followOrUnfollow` when the requester does not follow the target. -/
theorem followOrUnfollow_follow_outcome (s : Store) (reqId paramId : String)
    (cu tu : UserDoc) (hu : s.findUser reqId = some cu) (hv : s.findUser paramId = some tu)
    (hne : reqId ≠ paramId) (hf : paramId ∉ cu.following) :
    followOrUnfollow s reqId paramId =
      ⟨(s.updateUser reqId
          (fun u => { u with following := addToSet u.following paramId })).updateUser paramId
          (fun u => { u with followers := addToSet u.followers reqId }),
        [Effect.userFindById reqId, Effect.userFindById paramId,
         Effect.userFindByIdAndUpdate reqId, Effect.userFindByIdAndUpdate paramId],
        some ⟨200, [("message", JsVal.str "Followed successfully"),
          ("success", JsVal.bool true), ("action", JsVal.str "followed")]⟩⟩ := by
  unfold followOrUnfollow
  simp [hne, hu, hv, hf]

/-- The outcome of `followOrUnfollow` when the requester follows the target. -/
theorem followOrUnfollow_unfollow_outcome (s : Store) (reqId paramId : String)
    (cu tu : UserDoc) (hu : s.findUser reqId = some cu) (hv : s.findUser paramId = some tu)
    (hne : reqId ≠ paramId) (hf : paramId ∈ cu.following) :
    followOrUnfollow s reqId paramId =
      ⟨(s.updateUser reqId
          (fun u => { u with following := pull u.following paramId })).updateUser paramId
          (fun u => { u with followers := pull u.followers reqId }),
        [Effect.userFindById reqId, Effect.userFindById paramId,
         Effect.userFindByIdAndUpdate reqId, Effect.userFindByIdAndUpdate paramId],
        some ⟨200, [("message", JsVal.str "Unfollowed successfully"),
          ("success", JsVal.bool true), ("action", JsVal.str "unfollowed")]⟩⟩ := by
  unfold followOrUnfollow
  simp [hne, hu, hv, hf]

/-- The id a user is found under is the id of the document. -/
theorem id_of_findUser (s : Store) (id : String) (u : UserDoc)
    (h : s.findUser id = some u) : u._id = id := by
  unfold Store.findUser at h
  have := List.find?_some h
  simpa using this

/-- The two users after the two updates of `followOrUnfollow`, for any pair of list
updates `f` on the following of the requester and `g` on the followers of the target. -/
theorem findUser_after_both_updates (s : Store) (reqId paramId : String)
    (cu tu : UserDoc) (hu : s.findUser reqId = some cu) (hv : s.findUser paramId = some tu)
    (hne : reqId ≠ paramId) (f g : List String → List String) :
    ((s.updateUser reqId (fun u => { u with following := f u.following })).updateUser paramId
        (fun u => { u with followers := g u.followers })).findUser reqId =
      some { cu with following := f cu.following } ∧
    ((s.updateUser reqId (fun u => { u with following := f u.following })).updateUser paramId
        (fun u => { u with followers := g u.followers })).findUser paramId =
      some { tu with followers := g tu.followers } := by
  have hcu := id_of_findUser s reqId cu hu
  have h1 : (s.updateUser reqId (fun u => { u with following := f u.following })).findUser reqId
      = some { cu with following := f cu.following } :=
    findUser_updateUser_same s reqId _ cu hu hcu
  have h2 : (s.updateUser reqId (fun u => { u with following := f u.following })).findUser paramId
      = some tu := by
    exact (findUser_updateUser_other s reqId paramId
      (fun u => { u with following := f u.following }) hne (fun _ => rfl)).trans hv
  refine ⟨?_, ?_⟩
  · exact (findUser_updateUser_other _ paramId reqId
      (fun u => { u with followers := g u.followers }) (Ne.symm hne) (fun _ => rfl)).trans h1
  · exact findUser_updateUser_same _ paramId _ tu h2 (id_of_findUser s paramId tu hv)

/-- C20: when both users exist and their ids differ, `followOrUnfollow` answers
action "unfollowed" exactly when the requester followed the target before the call
and "followed" otherwise; after "followed" the target is in the following of the
requester and the requester in the followers of the target, after "unfollowed"
neither holds. -/
theorem followOrUnfollow_toggles (s : Store) (reqId paramId : String) (cu tu : UserDoc)
    (hu : s.findUser reqId = some cu) (hv : s.findUser paramId = some tu)
    (hne : reqId ≠ paramId) :
    (actionOf (followOrUnfollow s reqId paramId).response = some "unfollowed" ↔
      paramId ∈ cu.following) ∧
    (actionOf (followOrUnfollow s reqId paramId).response = some "followed" ↔
      paramId ∉ cu.following) ∧
    (actionOf (followOrUnfollow s reqId paramId).response = some "followed" →
      ∃ cu1 tu1, (followOrUnfollow s reqId paramId).store.findUser reqId = some cu1 ∧
        (followOrUnfollow s reqId paramId).store.findUser paramId = some tu1 ∧
        paramId ∈ cu1.following ∧ reqId ∈ tu1.followers) ∧
    (actionOf (followOrUnfollow s reqId paramId).response = some "unfollowed" →
      ∃ cu1 tu1, (followOrUnfollow s reqId paramId).store.findUser reqId = some cu1 ∧
        (followOrUnfollow s reqId paramId).store.findUser paramId = some tu1 ∧
        paramId ∉ cu1.following ∧ reqId ∉ tu1.followers) := by
  by_cases hf : paramId ∈ cu.following
  · rw [followOrUnfollow_unfollow_outcome s reqId paramId cu tu hu hv hne hf]
    have hboth := findUser_after_both_updates s reqId paramId cu tu hu hv hne
      (fun l => pull l paramId) (fun l => pull l reqId)
    refine ⟨by simp [actionOf, JsObj.get, hf], by simp [actionOf, JsObj.get, hf],
      by simp [actionOf, JsObj.get], ?_⟩
    intro _
    exact ⟨_, _, hboth.1, hboth.2, not_mem_pull _ _, not_mem_pull _ _⟩
  · rw [followOrUnfollow_follow_outcome s reqId paramId cu tu hu hv hne hf]
    have hboth := findUser_after_both_updates s reqId paramId cu tu hu hv hne
      (fun l => addToSet l paramId) (fun l => addToSet l reqId)
    refine ⟨by simp [actionOf, JsObj.get, hf], by simp [actionOf, JsObj.get, hf], ?_,
      by simp [actionOf, JsObj.get]⟩
    intro _
    exact ⟨_, _, hboth.1, hboth.2, mem_addToSet _ _, mem_addToSet _ _⟩

/-- Witness for C20: bob, who follows nobody, follows alice. -/
theorem followOrUnfollow_toggles_witness :
    actionOf (followOrUnfollow demoStore "bob" "alice").response = some "followed" ↔
      "alice" ∉ ([] : List String) :=
  (followOrUnfollow_toggles demoStore "bob" "alice"
    ⟨"bob", "Bob", "b@x.io", "h2", "b.png", "", [], [], [], []⟩
    ⟨"alice", "Alice", "a@x.io", "h1", "a.png", "", [], [], ["p1"], []⟩
    (by decide) (by decide) (by decide)).2.1

/-! ## Presence invariant -/

/-- A user holds a live connection exactly when some connection names the user. -/
theorem connectionsOf_ne_nil_iff (conns : List Connection) (u : String) :
    connectionsOf conns u ≠ [] ↔ ∃ c ∈ conns, c.userId = u := by
  unfold connectionsOf
  rw [Ne, List.filter_eq_nil_iff]
  simp

/-- The presence snapshot lists exactly the users that hold a live connection. -/
theorem mem_snapshotPresence (conns : List Connection) (u : String) :
    u ∈ snapshotPresence conns ↔ ∃ c ∈ conns, c.userId = u := by
  induction conns with
  | nil => simp [snapshotPresence]
  | cons c rest ih =>
    by_cases hc : c.userId ∈ snapshotPresence rest
    · simp only [snapshotPresence, hc, if_true, ih, List.mem_cons, exists_eq_or_imp]
      constructor
      · intro h
        exact Or.inr h
      · intro h
        rcases h with h | h
        · subst h
          exact ih.mp hc
        · exact h
    · simp only [snapshotPresence, hc, if_false, List.mem_cons, ih, exists_eq_or_imp]
      constructor
      · intro h
        rcases h with h | h
        · exact Or.inl h.symm
        · exact Or.inr h
      · intro h
        rcases h with h | h
        · exact Or.inl h.symm
        · exact Or.inr h

theorem consistent_empty : Registry.empty.Consistent := by
  simp [Registry.Consistent, Registry.empty]

theorem consistent_register (r : Registry) (userId connectionId : String)
    (h : r.Consistent) (r1 : Registry) (hr : r.register userId connectionId = Except.ok r1) :
    r1.Consistent := by
  unfold Registry.register at hr
  by_cases hdup : connectionId ∈ r.conns.map (fun c => c.socketId)
  · simp [hdup] at hr
  · have hnd : ((r.conns ++ [(⟨connectionId, userId⟩ : Connection)]).map
        (fun c => c.socketId)).Nodup := by
      rw [List.map_append, List.nodup_append]
      refine ⟨h.1, by simp, ?_⟩
      intro a ha hb
      simp only [List.map_cons, List.map_nil, List.mem_singleton] at hb
      subst hb
      exact hdup ha
    by_cases hzero : connectionsOf r.conns userId = []
    · simp only [hdup, if_false, hzero, if_true, Except.ok.injEq] at hr
      subst hr
      exact ⟨hnd, fun u => mem_snapshotPresence _ u⟩
    · simp only [hdup, if_false, hzero, Except.ok.injEq] at hr
      subst hr
      refine ⟨hnd, ?_⟩
      intro u
      rw [h.2 u]
      constructor
      · rintro ⟨c, hc, hcu⟩
        exact ⟨c, List.mem_append_left _ hc, hcu⟩
      · rintro ⟨c, hc, hcu⟩
        rcases List.mem_append.mp hc with hc | hc
        · exact ⟨c, hc, hcu⟩
        · rw [List.mem_singleton] at hc
          subst hc
          subst hcu
          exact (connectionsOf_ne_nil_iff r.conns _).mp hzero

theorem consistent_unregister (r : Registry) (connectionId : String) (h : r.Consistent) :
    (r.unregister connectionId).Consistent := by
  unfold Registry.unregister
  cases hfind : r.conns.find? (fun c => decide (c.socketId = connectionId)) with
  | none => exact h
  | some c =>
    have hcmem : c ∈ r.conns := List.mem_of_find?_eq_some hfind
    have hcid : c.socketId = connectionId := by simpa using List.find?_some hfind
    have hnd : ((r.conns.filter (fun x => decide (x.socketId ≠ connectionId))).map
        (fun c => c.socketId)).Nodup :=
      List.Nodup.sublist (List.Sublist.map _ (List.filter_sublist r.conns)) h.1
    by_cases hzero : connectionsOf
        (r.conns.filter (fun x => decide (x.socketId ≠ connectionId))) c.userId = []
    · simp only [hzero, if_true]
      exact ⟨hnd, fun u => mem_snapshotPresence _ u⟩
    · simp only [hzero, if_false]
      refine ⟨hnd, ?_⟩
      intro u
      rw [h.2 u]
      constructor
      · rintro ⟨x, hx, hxu⟩
        by_cases hxid : x.socketId = connectionId
        · have hxc : x = c :=
            List.inj_on_of_nodup_map h.1 hx hcmem (hxid.trans hcid.symm)
          subst hxc
          subst hxu
          exact (connectionsOf_ne_nil_iff _ _).mp hzero
        · exact ⟨x, List.mem_filter.mpr ⟨hx, by simpa using hxid⟩, hxu⟩
      · rintro ⟨x, hx, hxu⟩
        exact ⟨x, (List.mem_filter.mp hx).1, hxu⟩

theorem consistent_step (r : Registry) (op : RegistryOp) (h : r.Consistent) :
    (r.step op).Consistent := by
  cases op with
  | register userId connectionId =>
    have hstep : r.step (RegistryOp.register userId connectionId) =
        (match r.register userId connectionId with
          | Except.ok r1 => r1
          | Except.error _ => r) := rfl
    rw [hstep]
    cases hr : r.register userId connectionId with
    | error e => exact h
    | ok r1 => exact consistent_register r userId connectionId h r1 hr
  | unregister connectionId => exact consistent_unregister r connectionId h

theorem consistent_foldl (ops : List RegistryOp) (r : Registry) (h : r.Consistent) :
    (ops.foldl Registry.step r).Consistent := by
  induction ops generalizing r with
  | nil => exact h
  | cons op rest ih => exact ih (r.step op) (consistent_step r op h)

/-- C13: in every registry reached from the empty one by register and unregister
events, a user identity is in the online list last announced to the clients if and
only if that user holds at least one live connection. -/
theorem presence_iff_live_connection (ops : List RegistryOp) (u : String) :
    u ∈ (Registry.run ops).announced ↔ connectionsOf (Registry.run ops).conns u ≠ [] := by
  rw [connectionsOf_ne_nil_iff]
  exact (consistent_foldl ops Registry.empty consistent_empty).2 u

/-! ## Presence broadcasts on the client -/

/-- C14: on every `getOnlineUsers` event, whatever was received and dispatched
before, `App` dispatches `setOnlineUsers` with exactly the received list and nothing
else; the list of an earlier broadcast is not merged into it. -/
theorem app_dispatches_received_online_list (history : List ClientEvent)
    (onlineUsers : List String) :
    App.onEvent (ClientEvent.getOnlineUsers onlineUsers) = [Action.setOnlineUsers onlineUsers] ∧
    App.dispatched (history ++ [ClientEvent.getOnlineUsers onlineUsers]) =
      App.dispatched history ++ [Action.setOnlineUsers onlineUsers] := by
  refine ⟨rfl, ?_⟩
  induction history with
  | nil => rfl
  | cons e rest ih => simp [App.dispatched, ih]

/-! ## Captions -/

/-- The captions taken from the lines of the text are three. -/
theorem captionsOf_length (parse : String → Option JsVal) (text : String) :
    (captionsOf parse text).length = 3 := by
  unfold captionsOf
  cases hp : parse text with
  | none => simp
  | some v =>
    cases v with
    | arr items =>
      by_cases hl : items.length = 3
      · simp [hl]
      · simp [hl]
    | null => simp
    | bool b => simp
    | str t => simp
    | obj fields => simp

/-- C15: whatever text the model answers and whatever `JSON.parse` makes of it,
when the call of the model does not throw `generateCaption` answers 200 with success
true and a captions array of length exactly 3. -/
theorem generateCaption_success_has_three_captions (parse : String → Option JsVal)
    (gemini : String → Option String) (clock : Clock) (rand : Nat → Rand01)
    (url text : String) (hurl : url ≠ "") (hmodel : gemini url = some text) :
    generateCaption parse gemini clock rand (some url) =
      ⟨200, [("success", JsVal.bool true), ("captions", JsVal.arr (captionsOf parse text))]⟩ ∧
    (captionsOf parse text).length = 3 := by
  refine ⟨?_, captionsOf_length parse text⟩
  unfold generateCaption
  simp [hurl, hmodel]

/-- Witness for C15: the model answers two lines that are not JSON. -/
theorem generateCaption_success_has_three_captions_witness :
    (captionsOf (fun _ => Option.none) "Sunset\nWaves").length = 3 :=
  (generateCaption_success_has_three_captions (fun _ => Option.none)
    (fun _ => some "Sunset\nWaves") ⟨9, 4⟩ (fun _ => zeroRand)
    "data:image/jpeg;base64,AAAA" "Sunset\nWaves" (by decide) rfl).2

/-- Rounding a count that stays `n` units below `n * 2 ^ 53` does not reach
`n * 2 ^ 53`: the rounding moves it by at most half a unit of the last place, which
is less than `n`. -/
theorem roundSig53_lt (a n : Nat) (ha : a + n ≤ n * 2 ^ 53) (hn : 0 < n) :
    roundSig53 a < n * 2 ^ 53 := by
  unfold roundSig53
  by_cases hsmall : a < 2 ^ 53
  · rw [if_pos hsmall]
    omega
  · rw [if_neg hsmall]
    have ha0 : a ≠ 0 := by
      intro h0
      rw [h0] at hsmall
      exact hsmall (by decide)
    have hlow : 2 ^ Nat.log2 a ≤ a := Nat.log2_self_le ha0
    have hlog : 53 ≤ Nat.log2 a := by
      by_contra hlt
      have h1 : Nat.log2 a < 53 := by omega
      exact hsmall ((Nat.log2_lt ha0).mp h1)
    obtain ⟨t, ht⟩ : ∃ t, Nat.log2 a = t + 53 := ⟨Nat.log2 a - 53, by omega⟩
    have hs : Nat.log2 a - 52 = t + 1 := by omega
    have hpow : 2 ^ Nat.log2 a = 2 ^ t * 2 ^ 53 := by rw [ht, Nat.pow_add]
    have hhalf : 2 ^ t < n := by
      have h1 : 2 ^ t * 2 ^ 53 < n * 2 ^ 53 := by omega
      exact Nat.lt_of_mul_lt_mul_right h1
    have htwo : 2 ^ (t + 1) = 2 * 2 ^ t := by rw [Nat.pow_succ, Nat.mul_comm]
    have hdm : 2 ^ (t + 1) * (a / 2 ^ (t + 1)) + a % 2 ^ (t + 1) = a :=
      Nat.div_add_mod a (2 ^ (t + 1))
    simp only [hs, Nat.add_sub_cancel]
    have hup : (a / 2 ^ (t + 1) + 1) * 2 ^ (t + 1) =
        2 ^ (t + 1) * (a / 2 ^ (t + 1)) + 2 ^ (t + 1) := by
      rw [Nat.add_mul, Nat.one_mul, Nat.mul_comm]
    have hdown : a / 2 ^ (t + 1) * 2 ^ (t + 1) = 2 ^ (t + 1) * (a / 2 ^ (t + 1)) :=
      Nat.mul_comm _ _
    split
    · rename_i hcond
      rw [hup]
      have hrem : 2 ^ t ≤ a % 2 ^ (t + 1) := by
        rcases hcond with h | h
        · exact Nat.le_of_lt h
        · exact Nat.le_of_eq h.1.symm
      omega
    · rw [hdown]
      omega

/-- The index drawn for a non-empty array lies inside it: the product of a double
below 1 and the length rounds to a double below the length. -/
theorem Rand01.index_lt (r : Rand01) (n : Nat) (hn : 0 < n) : r.index n < n := by
  unfold Rand01.index
  rw [Nat.div_lt_iff_lt_mul (Nat.pos_pow_of_pos r.q (by decide))]
  have hm := r.hm
  have hprod : r.m * n + n ≤ n * 2 ^ 53 := by
    have h1 : (r.m + 1) * n ≤ 2 ^ 53 * n := Nat.mul_le_mul_right n hm
    rw [Nat.add_mul, Nat.one_mul] at h1
    rw [Nat.mul_comm n]
    exact h1
  have hround := roundSig53_lt (r.m * n) n hprod hn
  have hmono : n * 2 ^ 53 ≤ n * 2 ^ r.q :=
    Nat.mul_le_mul_left n (Nat.pow_le_pow_right (by decide) r.hq)
  omega

/-- Taking the entry at a position out of a list and putting it in front permutes
the list. -/
theorem perm_getElem_eraseIdx (l : List String) (i : Nat) (h : i < l.length) :
    (l[i] :: l.eraseIdx i).Perm l := by
  induction l generalizing i with
  | nil => simp at h
  | cons x xs ih =>
    cases i with
    | zero => simp
    | succ j =>
      have hj : j < xs.length := by simpa using h
      simp only [List.getElem_cons_succ, List.eraseIdx_cons_succ]
      exact (List.Perm.swap x xs[j] (xs.eraseIdx j)).trans ((ih j hj).cons x)

/-- The part of the day has one of three names. -/
theorem timeOfDay_cases (hours : Nat) :
    timeOfDay hours = "morning" ∨ timeOfDay hours = "afternoon" ∨
      timeOfDay hours = "evening" := by
  unfold timeOfDay
  by_cases h1 : hours < 12
  · simp [h1]
  · by_cases h2 : hours < 17
    · simp [h1, h2]
    · simp [h1, h2]

/-- The season of a month of the year has one of four names. -/
theorem currentSeason_cases (month : Fin 12) :
    currentSeason month.val = "spring" ∨ currentSeason month.val = "summer" ∨
      currentSeason month.val = "autumn" ∨ currentSeason month.val = "winter" := by
  fin_cases month <;> decide

/-- The fallback array has eight entries, pairwise distinct, at every time. -/
theorem fallbackCaptions_nodup (clock : Clock) :
    (fallbackCaptions clock).length = 8 ∧ (fallbackCaptions clock).Nodup := by
  refine ⟨rfl, ?_⟩
  unfold fallbackCaptions
  rcases timeOfDay_cases clock.hours.val with ht | ht | ht <;>
    rcases currentSeason_cases clock.month with hs | hs | hs | hs <;>
    (simp only [ht, hs]; decide)

/-- The selection loop, started with `picked` already selected: it ends with three
selected entries that, with what is left over, make up a permutation of what was
there, provided at least three entries are at hand. -/
theorem selectLoop_spec (rand : Nat → Rand01) (m : Nat) :
    ∀ (k : Nat) (picked fallbacks : List String),
      3 - picked.length = m → picked.length ≤ 3 → 3 ≤ picked.length + fallbacks.length →
      ∃ res rest : List String, selectLoop rand k (picked.map some) fallbacks = res.map some ∧
        res.length = 3 ∧ (res ++ rest).Perm (picked ++ fallbacks) := by
  induction m with
  | zero =>
    intro k picked fallbacks hm hle _
    have hlen : picked.length = 3 := by omega
    refine ⟨picked, fallbacks, ?_, hlen, List.Perm.refl _⟩
    rw [selectLoop]
    simp [hlen]
  | succ n ih =>
    intro k picked fallbacks hm hle hsum
    have hlt : picked.length < 3 := by omega
    have hpos : 0 < fallbacks.length := by omega
    have hidx := Rand01.index_lt (rand k) fallbacks.length hpos
    rw [selectLoop]
    simp only [List.length_map, hlt, hpos, gt_iff_lt, and_self, if_true]
    have hget : fallbacks[(rand k).index fallbacks.length]? =
        some fallbacks[(rand k).index fallbacks.length] := List.getElem?_eq_getElem hidx
    rw [hget]
    have hmap : picked.map some ++ [some fallbacks[(rand k).index fallbacks.length]] =
        (picked ++ [fallbacks[(rand k).index fallbacks.length]]).map some := by simp
    rw [hmap]
    have herase : (fallbacks.eraseIdx ((rand k).index fallbacks.length)).length =
        fallbacks.length - 1 := List.length_eraseIdx_of_lt hidx
    obtain ⟨res, rest, hres, hlen, hperm⟩ := ih (k + 1)
      (picked ++ [fallbacks[(rand k).index fallbacks.length]])
      (fallbacks.eraseIdx ((rand k).index fallbacks.length))
      (by simp only [List.length_append, List.length_singleton]; omega)
      (by simp only [List.length_append, List.length_singleton]; omega)
      (by simp only [List.length_append, List.length_singleton, herase]; omega)
    refine ⟨res, rest, hres, hlen, hperm.trans ?_⟩
    rw [List.append_assoc]
    exact List.Perm.append_left picked
      (perm_getElem_eraseIdx fallbacks _ hidx)

/-- C16: when the call of the model throws, for every sequence of random values
and every hour and month, the selection loop of `generateCaption` ends with exactly
3 captions, which together with 5 left-over entries are a permutation of the
8-entry fallback array (so they stand at pairwise different positions of it) and
are pairwise distinct strings; the answer is 200 with success false. -/
theorem generateCaption_fallback_selects_three (parse : String → Option JsVal)
    (gemini : String → Option String) (clock : Clock) (rand : Nat → Rand01)
    (url : String) (hurl : url ≠ "") (hmodel : gemini url = Option.none) :
    ∃ res rest : List String,
      selectLoop rand 0 [] (fallbackCaptions clock) = res.map some ∧
      res.length = 3 ∧ rest.length = 5 ∧
      (res ++ rest).Perm (fallbackCaptions clock) ∧
      (fallbackCaptions clock).length = 8 ∧
      res.Nodup ∧
      generateCaption parse gemini clock rand (some url) =
        ⟨200, [("success", JsVal.bool false), ("captions", JsVal.arr (res.map JsVal.str)),
          ("message", JsVal.str "Using fallback captions")]⟩ := by
  obtain ⟨hlen8, hnodup⟩ := fallbackCaptions_nodup clock
  obtain ⟨res, rest, hres, hlen, hperm⟩ :=
    selectLoop_spec rand 3 0 [] (fallbackCaptions clock) rfl (by simp) (by simp [hlen8])
  simp only [List.map_nil, List.nil_append] at hres hperm
  have hrest : rest.length = 5 := by
    have := hperm.length_eq
    simp only [List.length_append, hlen, hlen8] at this
    omega
  have hnd : (res ++ rest).Nodup := hperm.nodup_iff.mpr hnodup
  refine ⟨res, rest, hres, hlen, hrest, hperm, hlen8, (List.nodup_append.mp hnd).1, ?_⟩
  unfold generateCaption
  simp only [hurl, if_false, hmodel, hres, List.map_map]
  rfl

/-- Witness for C16: the model call fails at nine in May. -/
theorem generateCaption_fallback_selects_three_witness :
    (generateCaption (fun _ => Option.none) (fun _ => Option.none) ⟨9, 4⟩
      (fun _ => halfRand) (some "data:image/jpeg;base64,AAAA")).status = 200 := by
  obtain ⟨res, rest, _, _, _, _, _, _, h⟩ :=
    generateCaption_fallback_selects_three (fun _ => Option.none) (fun _ => Option.none)
      ⟨9, 4⟩ (fun _ => halfRand) "data:image/jpeg;base64,AAAA" (by decide) rfl
  rw [h]

/-! ## The assistant chat handler: validation and cache -/

/-- The trimmed string is empty exactly when every character is white space. -/
theorem jsTrim_length_eq_zero_iff (s : String) :
    (jsTrim s).length = 0 ↔ ∀ c ∈ s.toList, isJsWhitespace c = true := by
  unfold jsTrim
  rw [String.length_mk, List.length_reverse, List.length_eq_zero, List.dropWhile_eq_nil_iff]
  constructor
  · intro h
    have hall : ∀ x ∈ s.toList.dropWhile isJsWhitespace, isJsWhitespace x = true := by
      intro x hx
      exact h x (List.mem_reverse.mpr hx)
    have hnil : (s.toList.dropWhile isJsWhitespace).dropWhile isJsWhitespace = [] :=
      List.dropWhile_eq_nil_iff.mpr hall
    rw [List.dropWhile_idempotent] at hnil
    exact List.dropWhile_eq_nil_iff.mp hnil
  · intro h x hx
    have hnil : s.toList.dropWhile isJsWhitespace = [] := List.dropWhile_eq_nil_iff.mpr h
    rw [hnil] at hx
    simp at hx

/-- The validation test of `handleAIChat` holds exactly for blank messages. -/
theorem validation_test_iff_blank (message : BodyField) :
    (message.falsy || message.notString || message.trimmedEmpty) = true ↔ message.Blank := by
  cases message with
  | missing => simp [BodyField.falsy, BodyField.Blank]
  | nonString truthy => simp [BodyField.notString, BodyField.Blank]
  | string s =>
    simp only [BodyField.falsy, BodyField.notString, BodyField.trimmedEmpty, BodyField.Blank,
      Bool.or_false, Bool.or_eq_true, decide_eq_true_eq, jsTrim_length_eq_zero_iff]
    constructor
    · intro h
      rcases h with h | h
      · subst h
        intro c hc
        simp at hc
      · exact h
    · intro h
      exact Or.inr h

/-- A blank message is answered 400 at once. -/
theorem handleAIChat_blank (s : Store) (cache : Cache)
    (gemini : String → String → String → Option String) (rand : Rand01) (reqId : String)
    (message : BodyField) (h : message.Blank) :
    handleAIChat s cache gemini rand reqId message =
      ⟨cache, [], ⟨400, [("error", JsVal.str "Message cannot be empty")]⟩⟩ := by
  have hc := (validation_test_iff_blank message).mpr h
  unfold handleAIChat
  simp only [hc, if_true]

/-- A message that is not blank is never answered 400. -/
theorem handleAIChat_not_blank (s : Store) (cache : Cache)
    (gemini : String → String → String → Option String) (rand : Rand01) (reqId : String)
    (message : BodyField) (h : ¬ message.Blank) :
    (handleAIChat s cache gemini rand reqId message).response.status ≠ 400 := by
  have hc : ¬ (message.falsy || message.notString || message.trimmedEmpty) = true :=
    fun hc => h ((validation_test_iff_blank message).mp hc)
  cases message with
  | missing => exact absurd trivial h
  | nonString truthy => exact absurd trivial h
  | string msg =>
    unfold handleAIChat
    simp only [hc, if_false]
    cases hu : s.findUser reqId with
    | none => simp [hu]
    | some user =>
      cases hget : cache.get (reqId ++ ":" ++ msg) with
      | some v => simp [hu, hget]
      | none =>
        cases hg : gemini user.username user.bio msg with
        | some reply => simp [hu, hget, hg]
        | none => simp [hu, hget, hg]

/-- C17: `handleAIChat` answers 400 with the error "Message cannot be empty" if and
only if the message is missing, is not a string, or consists of white space only;
it then performs no user lookup, no cache access and no model call, and leaves the
cache as it was. -/
theorem handleAIChat_validation (s : Store) (cache : Cache)
    (gemini : String → String → String → Option String) (rand : Rand01) (reqId : String)
    (message : BodyField) :
    ((handleAIChat s cache gemini rand reqId message).response =
        ⟨400, [("error", JsVal.str "Message cannot be empty")]⟩ ↔ message.Blank) ∧
    ((handleAIChat s cache gemini rand reqId message).response.status = 400 ↔
      message.Blank) ∧
    (message.Blank →
      (handleAIChat s cache gemini rand reqId message).effects = [] ∧
      (handleAIChat s cache gemini rand reqId message).cache = cache) := by
  refine ⟨⟨?_, ?_⟩, ⟨?_, ?_⟩, ?_⟩
  · intro hresp
    by_contra hb
    exact handleAIChat_not_blank s cache gemini rand reqId message hb (by rw [hresp])
  · intro hb
    rw [handleAIChat_blank s cache gemini rand reqId message hb]
  · intro hstatus
    by_contra hb
    exact handleAIChat_not_blank s cache gemini rand reqId message hb hstatus
  · intro hb
    rw [handleAIChat_blank s cache gemini rand reqId message hb]
  · intro hb
    rw [handleAIChat_blank s cache gemini rand reqId message hb]
    exact ⟨rfl, rfl⟩

/-- Reading back the key just set gives the value set. -/
theorem Cache.get_set (c : Cache) (key : String) (value : AiReply) :
    (c.set key value).get key = some value := by
  simp [Cache.set, Cache.get]

/-- A value read from the cache is the value of one of its entries. -/
theorem Cache.mem_of_get (c : Cache) (key : String) (value : AiReply)
    (h : c.get key = some value) : (key, value) ∈ c := by
  induction c with
  | nil => simp [Cache.get] at h
  | cons e rest ih =>
    obtain ⟨k, v⟩ := e
    by_cases hk : k = key
    · simp only [Cache.get, hk, if_true, Option.some.injEq] at h
      subst h
      subst hk
      exact List.mem_cons_self _ _
    · simp only [Cache.get, hk, if_false] at h
      exact List.mem_cons_of_mem _ (ih h)

/-- Every entry of the cache after a call comes from the model, when that held
before the call. -/
theorem handleAIChat_cache_sources (s : Store) (cache : Cache)
    (gemini : String → String → String → Option String) (rand : Rand01) (reqId : String)
    (message : BodyField) (hinv : ∀ e ∈ cache, e.2.source = "gemini") :
    ∀ e ∈ (handleAIChat s cache gemini rand reqId message).cache, e.2.source = "gemini" := by
  unfold handleAIChat
  by_cases hc : (message.falsy || message.notString || message.trimmedEmpty) = true
  · simp only [hc, if_true]
    exact hinv
  · simp only [hc, if_false]
    cases message with
    | missing => exact hinv
    | nonString truthy => exact hinv
    | string msg =>
      cases hu : s.findUser reqId with
      | none => simpa only [hu] using hinv
      | some user =>
        cases hget : cache.get (reqId ++ ":" ++ msg) with
        | some v => simpa only [hu, hget] using hinv
        | none =>
          cases hg : gemini user.username user.bio msg with
          | none => simpa only [hu, hget, hg] using hinv
          | some reply =>
            simp only [hu, hget, hg]
            intro e he
            simp only [Bool.false_eq_true, if_false] at he
            rw [Cache.set, List.mem_cons] at he
            rcases he with he | he
            · subst he
              rfl
            · exact hinv e (List.mem_filter.mp he).1

/-- A request whose key is in the cache is answered from the cache. -/
theorem handleAIChat_hit (s : Store) (cache : Cache)
    (gemini : String → String → String → Option String) (rand : Rand01) (reqId msg : String)
    (user : UserDoc) (value : AiReply) (hvalid : ¬ (BodyField.string msg).Blank)
    (hu : s.findUser reqId = some user) (hget : cache.get (reqId ++ ":" ++ msg) = some value) :
    handleAIChat s cache gemini rand reqId (BodyField.string msg) =
      ⟨cache, [AiEffect.userFindById reqId, AiEffect.cacheGet (reqId ++ ":" ++ msg)],
        ⟨200, value.json⟩⟩ := by
  have hc : ¬ ((BodyField.string msg).falsy || (BodyField.string msg).notString ||
      (BodyField.string msg).trimmedEmpty) = true :=
    fun hc => hvalid ((validation_test_iff_blank _).mp hc)
  unfold handleAIChat
  simp only [hc, Bool.false_eq_true, if_false, hu, hget]

/-- A request whose key is not in the cache and that the model answers is answered
by the model, and the answer is stored under the key. -/
theorem handleAIChat_model_reply (s : Store) (cache : Cache)
    (gemini : String → String → String → Option String) (rand : Rand01) (reqId msg : String)
    (user : UserDoc) (reply : String) (hvalid : ¬ (BodyField.string msg).Blank)
    (hu : s.findUser reqId = some user) (hmiss : cache.get (reqId ++ ":" ++ msg) = Option.none)
    (hreply : gemini user.username user.bio msg = some reply) :
    handleAIChat s cache gemini rand reqId (BodyField.string msg) =
      ⟨cache.set (reqId ++ ":" ++ msg) ⟨reply, "gemini"⟩,
        [AiEffect.userFindById reqId, AiEffect.cacheGet (reqId ++ ":" ++ msg),
         AiEffect.modelCall msg, AiEffect.cacheSet (reqId ++ ":" ++ msg)],
        ⟨200, [("reply", JsVal.str reply), ("source", JsVal.str "gemini")]⟩⟩ := by
  have hc : ¬ ((BodyField.string msg).falsy || (BodyField.string msg).notString ||
      (BodyField.string msg).trimmedEmpty) = true :=
    fun hc => hvalid ((validation_test_iff_blank _).mp hc)
  unfold handleAIChat
  simp only [hc, Bool.false_eq_true, if_false, hu, hmiss, hreply]
  rfl

/-- A request that the model fails on leaves the cache as it was. -/
theorem handleAIChat_fallback_not_stored (s : Store) (cache : Cache)
    (gemini : String → String → String → Option String) (rand : Rand01) (reqId msg : String)
    (user : UserDoc) (hu : s.findUser reqId = some user)
    (hfail : gemini user.username user.bio msg = Option.none) :
    (handleAIChat s cache gemini rand reqId (BodyField.string msg)).cache = cache := by
  unfold handleAIChat
  by_cases hc : ((BodyField.string msg).falsy || (BodyField.string msg).notString ||
      (BodyField.string msg).trimmedEmpty) = true
  · simp only [hc, if_true]
  · simp only [hc, Bool.false_eq_true, if_false, hu]
    cases hget : cache.get (reqId ++ ":" ++ msg) with
    | some v => simp only [hget]
    | none => simp only [hget, hfail]

/-- C18: after the model has answered a request of an existing user whose key was
not cached, a later request of the same user with the same message, served while
the entry is in the cache, gets the same reply with source "gemini" and makes
no model call (it reads the user and the cache only), whatever the model would do
now.  Only model replies are stored: every entry stays of source "gemini", a call
on which the model fails stores nothing, and what a cache hit serves is an entry. -/
theorem handleAIChat_cache_hit (s : Store) (cache : Cache)
    (gemini gemini2 : String → String → String → Option String) (rand rand2 : Rand01)
    (reqId msg : String) (user : UserDoc) (reply : String)
    (hvalid : ¬ (BodyField.string msg).Blank) (hu : s.findUser reqId = some user)
    (hmiss : cache.get (reqId ++ ":" ++ msg) = Option.none)
    (hreply : gemini user.username user.bio msg = some reply) :
    (handleAIChat s cache gemini rand reqId (BodyField.string msg)).response =
      ⟨200, [("reply", JsVal.str reply), ("source", JsVal.str "gemini")]⟩ ∧
    (handleAIChat s (handleAIChat s cache gemini rand reqId (BodyField.string msg)).cache
        gemini2 rand2 reqId (BodyField.string msg)).response =
      ⟨200, [("reply", JsVal.str reply), ("source", JsVal.str "gemini")]⟩ ∧
    (handleAIChat s (handleAIChat s cache gemini rand reqId (BodyField.string msg)).cache
        gemini2 rand2 reqId (BodyField.string msg)).effects =
      [AiEffect.userFindById reqId, AiEffect.cacheGet (reqId ++ ":" ++ msg)] ∧
    ((∀ e ∈ cache, e.2.source = "gemini") →
      ∀ e ∈ (handleAIChat s cache gemini rand reqId (BodyField.string msg)).cache,
        e.2.source = "gemini") ∧
    (gemini2 user.username user.bio msg = Option.none →
      (handleAIChat s cache gemini2 rand2 reqId (BodyField.string msg)).cache = cache) ∧
    (∀ (cache0 : Cache) (value : AiReply), (∀ e ∈ cache0, e.2.source = "gemini") →
      cache0.get (reqId ++ ":" ++ msg) = some value →
      (handleAIChat s cache0 gemini2 rand2 reqId (BodyField.string msg)).response =
        ⟨200, value.json⟩ ∧ value.source = "gemini") := by
  have hfirst := handleAIChat_model_reply s cache gemini rand reqId msg user reply hvalid hu
    hmiss hreply
  have hsecond := handleAIChat_hit s (cache.set (reqId ++ ":" ++ msg) ⟨reply, "gemini"⟩)
    gemini2 rand2 reqId msg user ⟨reply, "gemini"⟩ hvalid hu (Cache.get_set _ _ _)
  refine ⟨by rw [hfirst], ?_, ?_, ?_, ?_, ?_⟩
  · rw [hfirst]
    simp only []
    rw [hsecond]
    rfl
  · rw [hfirst]
    simp only []
    rw [hsecond]
  · exact handleAIChat_cache_sources s cache gemini rand reqId (BodyField.string msg)
  · exact handleAIChat_fallback_not_stored s cache gemini2 rand2 reqId msg user hu
  · intro cache0 value hinv hget
    rw [handleAIChat_hit s cache0 gemini2 rand2 reqId msg user value hvalid hu hget]
    exact ⟨rfl, hinv _ (Cache.mem_of_get cache0 _ value hget)⟩

/-- Witness for C18: bob asks "hi" twice; the second time the model is down. -/
theorem handleAIChat_cache_hit_witness :
    (handleAIChat demoStore
        (handleAIChat demoStore [] demoGemini zeroRand "bob"
          (BodyField.string "hi")).cache
        failingGemini zeroRand "bob" (BodyField.string "hi")).response =
      ⟨200, [("reply", JsVal.str "Hello!"), ("source", JsVal.str "gemini")]⟩ :=
  (handleAIChat_cache_hit demoStore [] demoGemini failingGemini zeroRand
    zeroRand "bob" "hi" ⟨"bob", "Bob", "b@x.io", "h2", "b.png", "", [], [], [], []⟩
    "Hello!" (by simp [BodyField.Blank]; decide) (by decide) rfl rfl).2.1

/-! ## Bookmark toggling -/

/-- The id a post is found under is the id of the document. -/
theorem id_of_findPost (s : Store) (id : String) (p : PostDoc)
    (h : s.findPost id = some p) : p._id = id := by
  unfold Store.findPost at h
  have := List.find?_some h
  simpa using this

/-- Adding a value to a list as to a set changes the membership of no other value
and makes the value a member. -/
theorem mem_addToSet_iff (xs : List String) (x y : String) :
    y ∈ addToSet xs x ↔ y ∈ xs ∨ y = x := by
  unfold addToSet
  by_cases h : x ∈ xs
  · simp only [h, if_true]
    constructor
    · intro hy
      exact Or.inl hy
    · intro hy
      rcases hy with hy | hy
      · exact hy
      · subst hy
        exact h
  · simp [h]

/-- The outcome of `bookmarkPost` when the post is in the bookmarks of the user. -/
theorem bookmarkPost_unsave_outcome (s : Store) (reqId postId : String) (post : PostDoc)
    (user : UserDoc) (hp : s.findPost postId = some post) (hu : s.findUser reqId = some user)
    (hb : post._id ∈ user.bookmarks) :
    bookmarkPost s reqId postId =
      ⟨s.updateUser reqId (fun u => { u with bookmarks := pull u.bookmarks post._id }),
        [Effect.postFindById postId, Effect.userFindById reqId,
         Effect.userFindByIdAndUpdate reqId],
        some ⟨200, [("type", JsVal.str "unsaved"),
          ("message", JsVal.str "Post removed from bookmark"), ("success", JsVal.bool true)]⟩⟩ := by
  unfold bookmarkPost
  simp [hp, hu, hb]

/-- The outcome of `bookmarkPost` when the post is not in the bookmarks of the user. -/
theorem bookmarkPost_save_outcome (s : Store) (reqId postId : String) (post : PostDoc)
    (user : UserDoc) (hp : s.findPost postId = some post) (hu : s.findUser reqId = some user)
    (hb : post._id ∉ user.bookmarks) :
    bookmarkPost s reqId postId =
      ⟨s.updateUser reqId (fun u => { u with bookmarks := addToSet u.bookmarks post._id }),
        [Effect.postFindById postId, Effect.userFindById reqId,
         Effect.userFindByIdAndUpdate reqId],
        some ⟨200, [("type", JsVal.str "saved"),
          ("message", JsVal.str "Post bookmarked"), ("success", JsVal.bool true)]⟩⟩ := by
  unfold bookmarkPost
  simp [hp, hu, hb]

/-- C21: when the post and the user exist, `bookmarkPost` answers type "unsaved"
exactly when the bookmarks of the user held the post before the call and "saved"
otherwise, and afterwards the membership of the post in the bookmarks is flipped
while every other bookmark is as before; when the post or the user is missing the
answer is 404 and the store, so the bookmarks, is unchanged. -/
theorem bookmarkPost_toggles (s : Store) (reqId postId : String) :
    (∀ post user, s.findPost postId = some post → s.findUser reqId = some user →
      (typeOf (bookmarkPost s reqId postId).response = some "unsaved" ↔
        postId ∈ user.bookmarks) ∧
      (typeOf (bookmarkPost s reqId postId).response = some "saved" ↔
        postId ∉ user.bookmarks) ∧
      ∃ user1, (bookmarkPost s reqId postId).store.findUser reqId = some user1 ∧
        (postId ∈ user1.bookmarks ↔ postId ∉ user.bookmarks) ∧
        (∀ other, other ≠ postId → (other ∈ user1.bookmarks ↔ other ∈ user.bookmarks))) ∧
    (s.findPost postId = Option.none ∨ s.findUser reqId = Option.none →
      (bookmarkPost s reqId postId).response.map (fun r => r.status) = some 404 ∧
      (bookmarkPost s reqId postId).store = s ∧
      bookmarksOf (bookmarkPost s reqId postId).store reqId = bookmarksOf s reqId) := by
  refine ⟨?_, ?_⟩
  · intro post user hp hu
    have hpid := id_of_findPost s postId post hp
    have huid := id_of_findUser s reqId user hu
    by_cases hb : postId ∈ user.bookmarks
    · have hb1 : post._id ∈ user.bookmarks := by rw [hpid]; exact hb
      rw [bookmarkPost_unsave_outcome s reqId postId post user hp hu hb1, hpid]
      refine ⟨by simp [typeOf, JsObj.get, hb], by simp [typeOf, JsObj.get, hb], ?_⟩
      refine ⟨{ user with bookmarks := pull user.bookmarks postId },
        findUser_updateUser_same s reqId
          (fun u => { u with bookmarks := pull u.bookmarks postId }) user hu huid, ?_, ?_⟩
      · simp [pull, hb]
      · intro other hne
        simp [pull, hne]
    · have hb1 : post._id ∉ user.bookmarks := by rw [hpid]; exact hb
      rw [bookmarkPost_save_outcome s reqId postId post user hp hu hb1, hpid]
      refine ⟨by simp [typeOf, JsObj.get, hb], by simp [typeOf, JsObj.get, hb], ?_⟩
      refine ⟨{ user with bookmarks := addToSet user.bookmarks postId },
        findUser_updateUser_same s reqId
          (fun u => { u with bookmarks := addToSet u.bookmarks postId }) user hu huid, ?_, ?_⟩
      · simp [mem_addToSet_iff, hb]
      · intro other hne
        simp [mem_addToSet_iff, hne]
  · intro hmiss
    cases hp : s.findPost postId with
    | none =>
      unfold bookmarkPost
      simp [hp]
    | some post =>
      have hu : s.findUser reqId = Option.none := by
        rcases hmiss with h | h
        · rw [hp] at h
          exact absurd h (by simp)
        · exact h
      unfold bookmarkPost
      simp [hp, hu]

/-- Witness for C21: bob, who has no bookmark, bookmarks the post of alice. -/
theorem bookmarkPost_toggles_witness :
    typeOf (bookmarkPost demoStore "bob" "p1").response = some "saved" ↔
      "p1" ∉ ([] : List String) :=
  ((bookmarkPost_toggles demoStore "bob" "p1").1 ⟨"p1", "alice", [], []⟩
    ⟨"bob", "Bob", "b@x.io", "h2", "b.png", "", [], [], [], []⟩ (by decide) (by decide)).2.1

/-! ## The auth slice: follow and unfollow -/

/-- The user that `updateFollowStatus` leaves for "follow", in a state with a user. -/
theorem updateFollowStatus_follow_user (state : AuthState) (userId : String) (u : ClientUser)
    (hu : state.user = some u) :
    ∃ st, updateFollowStatus state userId "follow" = some st ∧
      st.user = some (if userId ∈ u.following then u
        else { u with following := u.following ++ [userId] }) := by
  unfold updateFollowStatus
  by_cases hmem : userId ∈ u.following
  · simp only [hu, hmem, if_true]
    exact ⟨_, rfl, rfl⟩
  · simp only [hu, hmem, if_true, if_false]
    exact ⟨_, rfl, rfl⟩

/-- The user that `updateFollowStatus` leaves for "unfollow", in a state with a user. -/
theorem updateFollowStatus_unfollow_user (state : AuthState) (userId : String)
    (u : ClientUser) (hu : state.user = some u) :
    ∃ st, updateFollowStatus state userId "unfollow" = some st ∧
      st.user =
        some { u with following := u.following.filter (fun id => decide (id ≠ userId)) } := by
  have hne : ("unfollow" = "follow") = False := eq_false (by decide)
  unfold updateFollowStatus
  simp only [hu, hne, if_true, if_false]
  exact ⟨_, rfl, rfl⟩

/-- C22: for a state with a user, the reducer `updateFollowStatus` with action type
"follow" does not throw and leaves `userId` in the following list of the user: the
list is unchanged when it held `userId` already, and is otherwise the old list
with `userId` appended once at the end, so that `userId` occurs once when it
occurred at most once before; the other fields of the user are kept. -/
theorem updateFollowStatus_follow (state : AuthState) (userId : String) (u : ClientUser)
    (hu : state.user = some u) :
    ∃ st u1, updateFollowStatus state userId "follow" = some st ∧ st.user = some u1 ∧
      userId ∈ u1.following ∧
      (userId ∈ u.following → u1.following = u.following) ∧
      (userId ∉ u.following → u1.following = u.following ++ [userId]) ∧
      (u.following.count userId ≤ 1 → u1.following.count userId = 1) ∧
      u1 = { u with following := u1.following } := by
  obtain ⟨st, hst, hus⟩ := updateFollowStatus_follow_user state userId u hu
  by_cases hmem : userId ∈ u.following
  · rw [if_pos hmem] at hus
    refine ⟨st, u, hst, hus, hmem, fun _ => rfl, fun h => absurd hmem h, ?_, rfl⟩
    intro hle
    have hpos : 0 < u.following.count userId := List.count_pos_iff.mpr hmem
    omega
  · rw [if_neg hmem] at hus
    refine ⟨st, { u with following := u.following ++ [userId] }, hst, hus, by simp,
      fun h => absurd h hmem, fun _ => rfl, ?_, rfl⟩
    intro _
    simp [List.count_append, List.count_eq_zero_of_not_mem hmem]

/-- Witness for C22: bob follows alice. -/
theorem updateFollowStatus_follow_witness :
    (updateFollowStatus demoAuthState "alice" "follow").map
        (fun st => st.user.map (fun x => x.following)) =
      some (some ["carol", "alice"]) := by
  obtain ⟨st, u1, hst, hus, _, _, happ, _, _⟩ :=
    updateFollowStatus_follow demoAuthState "alice" ⟨"bob", "Bob", "b.png", [], ["carol"]⟩ rfl
  rw [hst]
  simp only [Option.map_some', hus, happ (by decide)]
  rfl

/-- C23: for a state with a user, the reducer `updateFollowStatus` with action type
"unfollow" does not throw and leaves no occurrence of `userId` in the following
list of the user: the list is the old one with the entries equal to `userId`
removed, every other entry kept as often as before and in the original order; the
other fields of the user are kept. -/
theorem updateFollowStatus_unfollow (state : AuthState) (userId : String) (u : ClientUser)
    (hu : state.user = some u) :
    ∃ st u1, updateFollowStatus state userId "unfollow" = some st ∧ st.user = some u1 ∧
      userId ∉ u1.following ∧
      u1.following = u.following.filter (fun id => decide (id ≠ userId)) ∧
      u1.following.Sublist u.following ∧
      (∀ x, x ≠ userId → u1.following.count x = u.following.count x) ∧
      u1 = { u with following := u1.following } := by
  obtain ⟨st, hst, hus⟩ := updateFollowStatus_unfollow_user state userId u hu
  refine ⟨st, { u with following := u.following.filter (fun id => decide (id ≠ userId)) },
    hst, hus, by simp, rfl, List.filter_sublist _, ?_, rfl⟩
  intro x hx
  exact List.count_filter (by simpa using hx)

/-- Witness for C23: bob unfollows carol. -/
theorem updateFollowStatus_unfollow_witness :
    (updateFollowStatus demoAuthState "carol" "unfollow").map
        (fun st => st.user.map (fun x => x.following)) =
      some (some []) := by
  obtain ⟨st, u1, hst, hus, _, hfil, _, _, _⟩ :=
    updateFollowStatus_unfollow demoAuthState "carol" ⟨"bob", "Bob", "b.png", [], ["carol"]⟩ rfl
  rw [hst]
  simp only [Option.map_some', hus, hfil]
  decide

/-! ## Real-time messages -/

/-- C24: with a socket at hand, for every list `messages` the hook holds and every
received `newMessage` payload, the one listener that `useGetRTM` registered
dispatches `setMessages` once, with `messages` followed by the new message as the
last element: one entry more, the earlier ones unchanged and in order. -/
theorem newMessage_appends_one (messages : List JsVal) (newMessage : JsVal) :
    dispatchedOn (useGetRTM messages true) "newMessage" newMessage =
      [ChatAction.setMessages (messages ++ [newMessage])] ∧
    (messageHandler messages newMessage).payload.length = messages.length + 1 ∧
    (messageHandler messages newMessage).payload.take messages.length = messages ∧
    (messageHandler messages newMessage).payload.getLast? = some newMessage := by
  refine ⟨?_, ?_, ?_, ?_⟩
  · simp [dispatchedOn, useGetRTM, messageHandler]
  · simp [messageHandler, ChatAction.payload]
  · simp [messageHandler, ChatAction.payload]
  · simp [messageHandler, ChatAction.payload]

/-! ## Fan-out of a like to every session of the owner -/

/-- The whole trace of `likePost` for an existing post liked by another user, when
nothing throws. -/
theorem effects_likePost_notify (g : String → Option String) (s : Store)
    (reqId postId : String) (post : PostDoc)
    (h : s.findPost postId = some post) (hne : post.author ≠ reqId) :
    (likePost ⟨g, Faults.none⟩ s reqId postId).effects =
      [Effect.postFindById postId, Effect.postUpdateOne postId, Effect.postSave postId,
       Effect.userFindById reqId, Effect.getReceiverSocketId post.author,
       Effect.emit (Target.room (g post.author)) "notification"
        [("type", JsVal.str "like"), ("userId", JsVal.str reqId),
         ("userDetails", selectSummary (s.findUser reqId)), ("postId", JsVal.str postId),
         ("message", JsVal.str "Your post was liked")]] := by
  unfold likePost
  rw [h]
  simp [hne, Faults.none, findUser_updatePostLikes]

/-- With pairwise distinct connection identifiers, one emit to the room of each of
some live connections reaches exactly these connections, each once. -/
theorem fanout_rooms_of_members (conns : List Connection)
    (hnd : (conns.map (fun x => x.socketId)).Nodup) (ev : String) (p : JsObj)
    (l : List Connection) (hl : ∀ c ∈ l, c ∈ conns) :
    fanout conns (l.map (fun c => (Target.room (some c.socketId), ev, p))) =
      l.map (fun c => (c, ev, p)) := by
  induction l with
  | nil => rfl
  | cons x rest ih =>
    have hx : x ∈ conns := hl x (List.mem_cons_self x rest)
    have hrest : ∀ c ∈ rest, c ∈ conns := fun c hc => hl c (List.mem_cons_of_mem x hc)
    simp only [List.map_cons, fanout, deliveredTo, filter_socketId_of_nodup conns x hnd hx,
      ih hrest, List.map_nil, List.singleton_append]

/-- The router of a registry with pairwise distinct connection identifiers makes one
delivery attempt for each connection of the addressed user. -/
theorem Registry.deliver_eq (r : Registry) (hnd : (r.conns.map (fun x => x.socketId)).Nodup)
    (u ev : String) (p : JsObj) :
    r.deliver u ev p = (connectionsOf r.conns u).map (fun c => (c, ev, p)) := by
  unfold Registry.deliver
  apply fanout_rooms_of_members r.conns hnd ev p
  intro c hc
  unfold connectionsOf at hc
  exact (List.mem_filter.mp hc).1

/-- C4: with the Event Router of the spec behind the lookup and the emit, in every
registry reached by register and unregister events a like by a user other than the
owner of an existing post makes exactly one delivery attempt of the like
notification for each live connection of the owner: as many attempts as the owner
holds connections, every connection of the owner once and no other connection. -/
theorem likePost_pushes_to_every_connection (g : String → Option String) (s : Store)
    (reqId postId : String) (post : PostDoc) (ops : List RegistryOp)
    (h : s.findPost postId = some post) (hne : post.author ≠ reqId) :
    (Registry.run ops).routed (likePost ⟨g, Faults.none⟩ s reqId postId).effects =
      (connectionsOf (Registry.run ops).conns post.author).map
        (fun c => (c, "notification",
          [("type", JsVal.str "like"), ("userId", JsVal.str reqId),
           ("userDetails", selectSummary (s.findUser reqId)), ("postId", JsVal.str postId),
           ("message", JsVal.str "Your post was liked")])) ∧
    ((Registry.run ops).routed (likePost ⟨g, Faults.none⟩ s reqId postId).effects).length =
      (connectionsOf (Registry.run ops).conns post.author).length ∧
    (connectionsOf (Registry.run ops).conns post.author).Nodup := by
  have hnd : ((Registry.run ops).conns.map (fun x => x.socketId)).Nodup :=
    (consistent_foldl ops Registry.empty consistent_empty).1
  have hrouted : (Registry.run ops).routed (likePost ⟨g, Faults.none⟩ s reqId postId).effects =
      (connectionsOf (Registry.run ops).conns post.author).map
        (fun c => (c, "notification",
          [("type", JsVal.str "like"), ("userId", JsVal.str reqId),
           ("userDetails", selectSummary (s.findUser reqId)), ("postId", JsVal.str postId),
           ("message", JsVal.str "Your post was liked")])) := by
    rw [effects_likePost_notify g s reqId postId post h hne]
    simp only [Registry.routed, List.append_nil]
    exact Registry.deliver_eq _ hnd _ _ _
  refine ⟨hrouted, ?_, ?_⟩
  · rw [hrouted, List.length_map]
  · unfold connectionsOf
    exact (List.Nodup.of_map _ hnd).filter _

/-- Witness for C4: alice holds the sessions s1 and s2, bob likes her post, and the
notification is attempted on both. -/
theorem likePost_pushes_to_every_connection_witness :
    ((Registry.run demoOps).routed
      (likePost ⟨demoLookup, Faults.none⟩ demoStore "bob" "p1").effects).map
        (fun d => d.1.socketId) = ["s1", "s2"] := by
  rw [(likePost_pushes_to_every_connection demoLookup demoStore "bob" "p1"
    ⟨"p1", "alice", [], []⟩ demoOps (by decide) (by decide)).1]
  decide

/-! ## The rounded draw on an example -/

/-- The count 45035996273704956, which needs 56 bits, rounds up on a tie to the even
significand. -/
theorem roundSig53_tie_example : roundSig53 45035996273704956 = 45035996273704960 := by
  have hne : (45035996273704956 : Nat) ≠ 0 := by norm_num
  have h1 : 55 ≤ Nat.log2 45035996273704956 := (Nat.le_log2 hne).mpr (by norm_num)
  have h2 : Nat.log2 45035996273704956 < 56 := (Nat.log2_lt hne).mpr (by norm_num)
  have hlog : Nat.log2 45035996273704956 = 55 := by omega
  have hbig : ¬ (45035996273704956 : Nat) < 2 ^ 53 := by norm_num
  unfold roundSig53
  rw [if_neg hbig, hlog]
  norm_num

/-- The index drawn by a double with the significand 7505999378950826 and the last
bit of weight `2 ^ (-53)` in an array of length 6. -/
theorem index_of_significand (r : Rand01) (hm : r.m = 7505999378950826) (hq : r.q = 53) :
    r.index 6 = 5 := by
  unfold Rand01.index
  rw [hm, hq]
  have hprod : (7505999378950826 : Nat) * 6 = 45035996273704956 := by norm_num
  have hdiv : (45035996273704960 : Nat) / 2 ^ 53 = 5 := by norm_num
  rw [hprod, roundSig53_tie_example]
  exact hdiv

/-- The product of the double just below 5/6 and the length 6 rounds up to 5: the
index drawn is 5, where the exact product would floor to 4. -/
theorem index_belowFiveSixths : belowFiveSixths.index 6 = 5 :=
  index_of_significand belowFiveSixths rfl rfl

/-- The draws 0, 0 and the double just below 5/6 select the first two fallbacks and
then the last of the six that are left. -/
theorem selectLoop_on_rounded_draw :
    selectLoop (fun k => if k < 2 then zeroRand else belowFiveSixths) 0 []
        (fallbackCaptions ⟨9, 4⟩) =
      [some "Morning vibes ☕", some "Golden morning moments", some "This is happiness 🌟"] := by
  have hzero : ∀ n, zeroRand.index n = 0 := by
    intro n
    simp [Rand01.index, roundSig53, zeroRand]
  have hcaps : fallbackCaptions ⟨9, 4⟩ =
      ["Morning vibes ☕", "Golden morning moments", "Summer magic ✨",
       "Living for this summer", "Making memories 📸", "Perfect shot!",
       "Frame-worthy moment 🖼️", "This is happiness 🌟"] := by decide
  rw [hcaps, selectLoop]
  simp only [List.length_nil, List.length_cons, Nat.zero_lt_succ, Nat.lt_irrefl,
    if_true, hzero, List.nil_append, gt_iff_lt, and_self, Nat.reduceLT]
  rw [selectLoop]
  simp only [List.length_cons, List.length_nil, List.eraseIdx, List.getElem?_cons_zero,
    Nat.reduceAdd, Nat.reduceLT, Nat.zero_lt_succ, gt_iff_lt, and_self, if_true, hzero,
    List.singleton_append]
  rw [selectLoop]
  simp only [List.length_cons, List.length_nil, List.eraseIdx, List.getElem?_cons_zero,
    Nat.reduceAdd, Nat.reduceLT, Nat.lt_irrefl, Nat.zero_lt_succ, gt_iff_lt, and_self,
    if_true, if_false, index_belowFiveSixths, List.cons_append, List.nil_append]
  rw [selectLoop]
  simp [index_belowFiveSixths]

end ChatApp
